import Mathlib

/-!
X11 selection input stream (gdk/x11/gdkselectioninputstream-x11.c)

A shallow embedding of `GdkX11SelectionInputStream`: the chunk queue drained by
`gdk_x11_selection_input_stream_fill_buffer`, the parked asynchronous read, and
the event filter that drives a selection transfer (single or `INCR`).

Conventions of the embedding

* A `GBytes` is the list of its bytes; `g_bytes_get_size` is `List.length`.
* `priv->chunks` (a `GAsyncQueue`) is a list whose head is the front of the
  queue: `g_async_queue_push` appends, `g_async_queue_push_front_unlocked`
  conses, the pops take the head.
* The scheduling model is single threaded.  A blocking pop on an empty queue
  can therefore never be woken up; a call that would block yields `none`.
* Pointers are `Option Nat` (`none` is `NULL`).  What `memcpy` stores through
  the destination pointer is returned as the list `out`.
* Calls into Xlib and `g_task_return_int` are recorded in logs kept next to the
  private fields of the stream.
* Object lifetime (`g_object_ref` / `g_object_unref`, `g_free`, `XFree`) is not
  modelled.
* Byte counts are natural numbers.  Inside the drain every subtraction is
  guarded by the comparison before it and `result` never exceeds the initial
  `count`.  In `get_selection_property` the request is limited to
  `0x1FFFFFFF` 32-bit units, so the products stay far below the width of
  `gsize`.
-/

namespace GdkX11

/-! ## Basic types -/

abbrev guchar := Nat
abbrev GBytes := List guchar
abbrev Atom := Nat
abbrev Window := Nat
abbrev Display := Nat
abbrev GTask := Nat

/-- X.h: `#define None 0L`. -/
def None : Atom := 0

/-- X.h: `#define Success 0`. -/
def Success : Int := 0

/-- X.h: `#define PropertyNewValue 0`. -/
def PropertyNewValue : Int := 0

/-- X.h: `#define PropertyDelete 1`. -/
def PropertyDelete : Int := 1

/-- The value of `sizeof (short)`: two bytes on every ABI Xlib runs on. -/
def sizeof_short : Nat := 2

/-- Constants the source takes from its build environment: `sizeof (long)` and
the atom interned for the name `"INCR"`
(`gdk_x11_get_xatom_by_name_for_display (priv->display, "INCR")`). -/
structure Abi where
  sizeof_long : Nat
  INCR : Atom
  deriving DecidableEq, Repr

/-- An LP64 build, with 400 standing for the interned `INCR` atom. -/
def lp64 : Abi := { sizeof_long := 8, INCR := 400 }

/-! ## The chunk queue drain -/

/-- Local variables of the loop in `gdk_x11_selection_input_stream_fill_buffer`
together with the queue. -/
structure FillState where
  /-- The queue `priv->chunks`. -/
  chunks : List GBytes
  /-- Bytes stored through `buffer` so far, in address order. -/
  out : List guchar
  /-- The remaining `count`. -/
  count : Nat
  /-- The accumulated `result`. -/
  result : Nat
  deriving DecidableEq, Repr

/-- What `memcpy (buffer, g_bytes_get_data (bytes, NULL), n)` stores, guarded by
`if (buffer)`. -/
def memcpy_guarded (buffer : Option Nat) (bytes : GBytes) (n : Nat) : List guchar :=
  if buffer.isSome then bytes.take n else []

/-- The `for` loop of `gdk_x11_selection_input_stream_fill_buffer`, entered at
its condition with `bytes` the chunk popped last (`none` is `NULL`).  One unit
of fuel is spent per evaluation of the loop condition.  The result is the
value of `bytes` on leaving the loop and the state at that point. -/
def gdk_x11_selection_input_stream_fill_buffer_loop (buffer : Option Nat) :
    Nat → Option GBytes → FillState → Option (Option GBytes × FillState)
  | 0, _, _ => none
  | _ + 1, none, st => some (none, st)
  | fuel + 1, some bytes, st =>
    if st.count = 0 then
      some (some bytes, st)
    else
      let size := bytes.length
      if size = 0 then
        -- EOF marker, put it back; break
        some (some bytes, { st with chunks := bytes :: st.chunks })
      else if size > st.count then
        let subbytes := bytes.drop st.count
        let st1 : FillState :=
          { st with out := st.out ++ memcpy_guarded buffer bytes st.count,
                    chunks := subbytes :: st.chunks }
        let size := st1.count
        let st2 : FillState :=
          { st1 with result := st1.result + size, count := st1.count - size }
        -- bytes = g_async_queue_try_pop_unlocked (priv->chunks)
        gdk_x11_selection_input_stream_fill_buffer_loop buffer fuel st2.chunks.head?
          { st2 with chunks := st2.chunks.tail }
      else
        let st1 : FillState :=
          { st with out := st.out ++ memcpy_guarded buffer bytes size }
        let st2 : FillState :=
          { st1 with result := st1.result + size, count := st1.count - size }
        gdk_x11_selection_input_stream_fill_buffer_loop buffer fuel st2.chunks.head?
          { st2 with chunks := st2.chunks.tail }

/-- Outcome of `gdk_x11_selection_input_stream_fill_buffer`: the queue
afterwards, the bytes stored through `buffer`, and the returned `result`. -/
structure FillResult where
  chunks : List GBytes
  out : List guchar
  result : Nat
  deriving DecidableEq, Repr

/-- The function `gdk_x11_selection_input_stream_fill_buffer`.  The first pop is
blocking: on an empty queue the call does not return (`none`).  Every
iteration of the loop with `count > 0` either breaks or lowers `count`, so
`count + 1` evaluations of the condition are enough. -/
def gdk_x11_selection_input_stream_fill_buffer (chunks : List GBytes) (buffer : Option Nat) (count : Nat) :
    Option FillResult :=
  match chunks with
  | [] => none
  | bytes :: rest =>
    match gdk_x11_selection_input_stream_fill_buffer_loop buffer (count + 1) (some bytes)
        { chunks := rest, out := [], count := count, result := 0 } with
    | none => none
    | some (bytes, st) =>
      -- if (bytes) g_async_queue_push_front_unlocked (priv->chunks, bytes);
      let chunks :=
        match bytes with
        | some b => b :: st.chunks
        | none => st.chunks
      some { chunks := chunks, out := st.out, result := st.result }

/-! ## Xlib as seen by the stream -/

/-- What one call of `XGetWindowProperty (display, owner, property, 0,
0x1FFFFFFF, False, AnyPropertyType, ...)` hands back: the return value and the
out-parameters the source looks at.  `data i` is the byte at `data[i]`. -/
structure XPropertyReply where
  status : Int
  prop_type : Atom
  prop_format : Int
  nitems : Nat
  data : Nat → guchar

/-- The X connection at the moment of one filter invocation. -/
structure XServer where
  XGetWindowProperty : Display → Window → Atom → XPropertyReply

/-- Calls into Xlib that change or query server state. -/
inductive XCall where
  | XConvertSelection (display : Display) (selection target property : Atom)
      (requestor : Window) (time : Nat)
  | XGetWindowProperty (display : Display) (window : Window) (property : Atom)
  | XDeleteProperty (display : Display) (window : Window) (property : Atom)
  deriving DecidableEq, Repr

/-- The events the filter tells apart; `xany.display` and `xany.window` are the
first two fields of each. -/
inductive XEvent where
  | PropertyNotify (display : Display) (window : Window) (atom : Atom) (state : Int)
  | SelectionNotify (display : Display) (requestor : Window)
      (selection target property : Atom)
  | other (display : Display) (window : Window)
  deriving DecidableEq, Repr

/-- The field `xevent->xany.display`. -/
def XEvent.display : XEvent → Display
  | .PropertyNotify d _ _ _ => d
  | .SelectionNotify d _ _ _ _ => d
  | .other d _ => d

/-- The field `xevent->xany.window`. -/
def XEvent.window : XEvent → Window
  | .PropertyNotify _ w _ _ => w
  | .SelectionNotify _ w _ _ _ => w
  | .other _ w => w

inductive GdkFilterReturn where
  | GDK_FILTER_CONTINUE
  | GDK_FILTER_TRANSLATE
  | GDK_FILTER_REMOVE
  deriving DecidableEq, Repr

/-- The bytes `g_bytes_new_with_free_func (data, length, ...)` refers to. -/
def g_bytes_new_with_free_func (data : Nat → guchar) (length : Nat) : GBytes :=
  (List.range length).map data

/-- The function `get_selection_property`: the returned chunk (`none` is
`NULL`) with `*ret_type` and `*ret_format`. -/
def get_selection_property (abi : Abi) (x : XServer) (display : Display)
    (owner : Window) (property : Atom) : Option GBytes × Atom × Int :=
  let r := x.XGetWindowProperty display owner property
  if r.status ≠ Success then
    (none, None, 0)
  else if r.prop_type ≠ None then
    if r.prop_format = 8 then
      (some (g_bytes_new_with_free_func r.data r.nitems), r.prop_type, r.prop_format)
    else if r.prop_format = 16 then
      (some (g_bytes_new_with_free_func r.data (sizeof_short * r.nitems)),
        r.prop_type, r.prop_format)
    else if r.prop_format = 32 then
      (some (g_bytes_new_with_free_func r.data (abi.sizeof_long * r.nitems)),
        r.prop_type, r.prop_format)
    else
      (none, None, 0)
  else
    (none, None, 0)

/-! ## The stream -/

/-- One `g_task_return_int (task, value)`, with the bytes the read stored
through its destination pointer. -/
structure TaskReturn where
  task : GTask
  value : Int
  data : List guchar
  deriving DecidableEq, Repr

/-- The private fields of the stream (`GdkX11SelectionInputStreamPrivate`)
followed by the pieces of its surroundings the code acts on. -/
structure GdkX11SelectionInputStream where
  /-- The value `gdk_x11_display_get_xdisplay (priv->display)`. -/
  xdisplay : Display
  /-- The value `GDK_X11_DISPLAY (priv->display)->leader_window`. -/
  leader_window : Window
  chunks : List GBytes
  xselection : Atom
  xtarget : Atom
  xproperty : Atom
  pending_task : Option GTask
  pending_data : Option Nat
  pending_size : Nat
  complete : Bool
  incr : Bool
  /-- Membership of the stream in `GDK_X11_DISPLAY (priv->display)->input_streams`. -/
  in_input_streams : Bool
  /-- Whether `gdk_x11_selection_input_stream_filter_event` is installed for the stream. -/
  filter_installed : Bool
  /-- The calls of `g_task_return_int` so far, oldest first. -/
  task_returns : List TaskReturn
  /-- The Xlib calls so far, oldest first. -/
  xcalls : List XCall
  deriving DecidableEq, Repr

def gdk_x11_selection_input_stream_has_data (s : GdkX11SelectionInputStream) : Bool :=
  decide (s.chunks.length > 0) || s.complete

def gdk_x11_selection_input_stream_flush (s : GdkX11SelectionInputStream) :
    Option GdkX11SelectionInputStream :=
  if !gdk_x11_selection_input_stream_has_data s then
    some s
  else
    match s.pending_task with
    | none => some s
    | some task =>
      match gdk_x11_selection_input_stream_fill_buffer s.chunks s.pending_data s.pending_size with
      | none => none
      | some r =>
        some { s with
          chunks := r.chunks
          task_returns := s.task_returns ++ [{ task := task, value := r.result, data := r.out }]
          pending_task := none
          pending_data := none
          pending_size := 0 }

def gdk_x11_selection_input_stream_complete (s : GdkX11SelectionInputStream) :
    Option GdkX11SelectionInputStream :=
  if s.complete then
    some s
  else
    let s1 := { s with complete := true }
    -- g_async_queue_push (priv->chunks, g_bytes_new (NULL, 0))
    let s2 := { s1 with chunks := s1.chunks ++ [[]] }
    match gdk_x11_selection_input_stream_flush s2 with
    | none => none
    | some s3 => some { s3 with in_input_streams := false, filter_installed := false }

/-- Outcome of a synchronous read: the stream afterwards, the returned
`gssize`, and the bytes stored in `buffer`. -/
structure ReadResult where
  stream : GdkX11SelectionInputStream
  ret : Int
  out : List guchar
  deriving DecidableEq, Repr

def gdk_x11_selection_input_stream_read (s : GdkX11SelectionInputStream)
    (buffer : Option Nat) (count : Nat) : Option ReadResult :=
  match gdk_x11_selection_input_stream_fill_buffer s.chunks buffer count with
  | none => none
  | some r => some { stream := { s with chunks := r.chunks }, ret := r.result, out := r.out }

/-- The function `gdk_x11_selection_input_stream_read_async`; `task` names the
`GTask` made by `g_task_new` for this call. -/
def gdk_x11_selection_input_stream_read_async (s : GdkX11SelectionInputStream)
    (buffer : Option Nat) (count : Nat) (task : GTask) :
    Option GdkX11SelectionInputStream :=
  if gdk_x11_selection_input_stream_has_data s then
    match gdk_x11_selection_input_stream_fill_buffer s.chunks buffer count with
    | none => none
    | some r =>
      some { s with
        chunks := r.chunks
        task_returns := s.task_returns ++ [{ task := task, value := r.result, data := r.out }] }
  else
    some { s with pending_data := buffer, pending_size := count, pending_task := some task }

/-- The function `gdk_x11_selection_input_stream_finalize`, as far as the
fields of the embedding go. -/
def gdk_x11_selection_input_stream_finalize (s : GdkX11SelectionInputStream) :
    Option GdkX11SelectionInputStream :=
  gdk_x11_selection_input_stream_complete s

def gdk_x11_selection_input_stream_filter_event (abi : Abi) (x : XServer)
    (xevent : XEvent) (s : GdkX11SelectionInputStream) :
    Option (GdkX11SelectionInputStream × GdkFilterReturn) :=
  let xdisplay := s.xdisplay
  let xwindow := s.leader_window
  if xevent.display ≠ xdisplay ∨ xevent.window ≠ xwindow then
    some (s, .GDK_FILTER_CONTINUE)
  else
    match xevent with
    | .PropertyNotify _ _ atom state =>
      if s.incr = false ∨ atom ≠ s.xproperty ∨ state ≠ PropertyNewValue then
        some (s, .GDK_FILTER_CONTINUE)
      else
        let (bytes, type, _) := get_selection_property abi x xdisplay xwindow atom
        let s := { s with xcalls := s.xcalls ++ [.XGetWindowProperty xdisplay xwindow atom] }
        let r :=
          match bytes with
          | none => gdk_x11_selection_input_stream_complete s
          | some b =>
            if b.length = 0 ∨ type = None then
              gdk_x11_selection_input_stream_complete s
            else
              gdk_x11_selection_input_stream_flush { s with chunks := s.chunks ++ [b] }
        match r with
        | none => none
        | some s =>
          some ({ s with xcalls := s.xcalls ++ [.XDeleteProperty xdisplay xwindow atom] },
            .GDK_FILTER_CONTINUE)
    | .SelectionNotify _ _ selection target property =>
      if s.xselection ≠ selection ∨ s.xtarget ≠ target then
        some (s, .GDK_FILTER_CONTINUE)
      else if property ≠ None then
        let (bytes, type, _) := get_selection_property abi x xdisplay xwindow property
        let s := { s with xcalls := s.xcalls ++ [.XGetWindowProperty xdisplay xwindow property] }
        match bytes with
        | none =>
          match gdk_x11_selection_input_stream_complete s with
          | none => none
          | some s => some (s, .GDK_FILTER_REMOVE)
        | some b =>
          let r :=
            if type = abi.INCR then
              gdk_x11_selection_input_stream_flush { s with incr := true }
            else
              gdk_x11_selection_input_stream_complete { s with chunks := s.chunks ++ [b] }
          match r with
          | none => none
          | some s =>
            some ({ s with xcalls := s.xcalls ++ [.XDeleteProperty xdisplay xwindow property] },
              .GDK_FILTER_REMOVE)
      else
        -- bytes = NULL
        match gdk_x11_selection_input_stream_complete s with
        | none => none
        | some s => some (s, .GDK_FILTER_REMOVE)
    | .other _ _ => some (s, .GDK_FILTER_CONTINUE)

/-- The function `gdk_x11_selection_input_stream_new`.  The display supplies
its X connection and leader window; the three atoms are what
`gdk_x11_get_xatom_by_name_for_display` hands back for the selection name, the
target name and the per-stream property name. -/
def gdk_x11_selection_input_stream_new (xdisplay : Display) (leader_window : Window)
    (xselection xtarget xproperty : Atom) (timestamp : Nat) :
    GdkX11SelectionInputStream :=
  { xdisplay := xdisplay
    leader_window := leader_window
    chunks := []
    xselection := xselection
    xtarget := xtarget
    xproperty := xproperty
    pending_task := none
    pending_data := none
    pending_size := 0
    complete := false
    incr := false
    in_input_streams := true
    filter_installed := true
    task_returns := []
    xcalls := [.XConvertSelection xdisplay xselection xtarget xproperty leader_window timestamp] }

/-! ## Closed form of the drain -/

/-- What a call of `fill_buffer` with a non-empty queue comes to, by recursion
on the queue instead of the loop. -/
def drain (buffer : Option Nat) : List GBytes → Nat → FillResult
  | [], _ => { chunks := [], out := [], result := 0 }
  | b :: rest, count =>
    if count = 0 then
      { chunks := b :: rest, out := [], result := 0 }
    else if b.length = 0 then
      { chunks := b :: b :: rest, out := [], result := 0 }
    else if b.length > count then
      { chunks := b.drop count :: rest, out := memcpy_guarded buffer b count, result := count }
    else
      let r := drain buffer rest (count - b.length)
      { chunks := r.chunks, out := memcpy_guarded buffer b b.length ++ r.out,
        result := b.length + r.result }

/-- The number of bytes queued before the first zero-length chunk. -/
def queued_before_eof (q : List GBytes) : Nat :=
  ((q.takeWhile (fun b => decide (b ≠ []))).flatten).length

/-- The step after the loop of `fill_buffer`: push back the chunk in hand, if
any, and report. -/
def fill_finish (p : Option GBytes × FillState) : FillResult :=
  { chunks :=
      match p.1 with
      | some b => b :: p.2.chunks
      | none => p.2.chunks
    out := p.2.out
    result := p.2.result }

/-- The bytes queued before the first zero-length chunk. -/
def data_before_eof (q : List GBytes) : List guchar :=
  (q.takeWhile (fun b => decide (b ≠ []))).flatten

/-! ## Runs of the stream -/

/-- Hand the events to the filter one after the other, each with the X
connection as it is at that moment. -/
def filter_events (abi : Abi) :
    List (XServer × XEvent) → GdkX11SelectionInputStream → Option GdkX11SelectionInputStream
  | [], s => some s
  | (x, xevent) :: rest, s =>
    match gdk_x11_selection_input_stream_filter_event abi x xevent s with
    | none => none
    | some (s1, _) => filter_events abi rest s1

/-- Successive synchronous reads into `buffer` with the counts `cnt i`,
`cnt (i + 1)`, ... up to and including the first read that returns 0; the
value is the concatenation of what the reads stored.  `none` when a read
blocks or when `fuel` reads were not enough to see a 0. -/
def read_until_eof (cnt : Nat → Nat) (buffer : Nat) :
    Nat → Nat → GdkX11SelectionInputStream → Option (List guchar)
  | 0, _, _ => none
  | fuel + 1, i, s =>
    match gdk_x11_selection_input_stream_read s (some buffer) (cnt i) with
    | none => none
    | some r =>
      if r.ret = 0 then some []
      else (read_until_eof cnt buffer fuel (i + 1) r.stream).map (fun rest => r.out ++ rest)

/-- Successive `read_async` calls into `buffer` with the counts `cnt i`,
`cnt (i + 1)`, ... and the tasks `i`, `i + 1`, ..., each of which has to
resolve its task within the call, up to and including the first that resolves
with 0; the value is the concatenation of what the calls stored.  `none` when
a call blocks or parks its task, or when `fuel` calls were not enough. -/
def read_async_until_eof (cnt : Nat → Nat) (buffer : Nat) :
    Nat → Nat → GdkX11SelectionInputStream → Option (List guchar)
  | 0, _, _ => none
  | fuel + 1, i, s =>
    match gdk_x11_selection_input_stream_read_async s (some buffer) (cnt i) i with
    | none => none
    | some s1 =>
      match s1.task_returns.getLast? with
      | none => none
      | some tr =>
        if s1.pending_task = none ∧ s1.task_returns = s.task_returns ++ [tr] ∧ tr.task = i then
          if tr.value = 0 then some []
          else (read_async_until_eof cnt buffer fuel (i + 1) s1).map (fun rest => tr.data ++ rest)
        else none

/-- The operations that act on a stream. -/
inductive Op where
  | read (buffer : Option Nat) (count : Nat)
  | read_async (buffer : Option Nat) (count : Nat) (task : GTask)
  | filter_event (x : XServer) (xevent : XEvent)
  | flush
  | complete

/-- The stream after one operation (`none` when the operation blocks). -/
def Op.apply (abi : Abi) : Op → GdkX11SelectionInputStream → Option GdkX11SelectionInputStream
  | .read buffer count, s =>
    (gdk_x11_selection_input_stream_read s buffer count).map (fun r => r.stream)
  | .read_async buffer count task, s =>
    gdk_x11_selection_input_stream_read_async s buffer count task
  | .filter_event x xevent, s =>
    (gdk_x11_selection_input_stream_filter_event abi x xevent s).map (fun r => r.1)
  | .flush, s => gdk_x11_selection_input_stream_flush s
  | .complete, s => gdk_x11_selection_input_stream_complete s

/-- The stream after a list of operations. -/
def run_ops (abi : Abi) : List Op → GdkX11SelectionInputStream → Option GdkX11SelectionInputStream
  | [], s => some s
  | op :: rest, s =>
    match op.apply abi s with
    | none => none
    | some s1 => run_ops abi rest s1

/-- The states a stream can be in: it starts in the state made by
`gdk_x11_selection_input_stream_new`; reads, asynchronous reads, flushes and
completion act on it, and its event filter is run only while it is installed. -/
inductive Reachable (abi : Abi) : GdkX11SelectionInputStream → Prop where
  | new (xdisplay : Display) (leader_window : Window) (xselection xtarget xproperty : Atom)
      (timestamp : Nat) :
      Reachable abi (gdk_x11_selection_input_stream_new xdisplay leader_window
        xselection xtarget xproperty timestamp)
  | read {s : GdkX11SelectionInputStream} {r : ReadResult} (buffer : Option Nat) (count : Nat) :
      Reachable abi s → gdk_x11_selection_input_stream_read s buffer count = some r →
      Reachable abi r.stream
  | read_async {s s1 : GdkX11SelectionInputStream} (buffer : Option Nat) (count : Nat)
      (task : GTask) :
      Reachable abi s →
      gdk_x11_selection_input_stream_read_async s buffer count task = some s1 →
      Reachable abi s1
  | filter_event {s s1 : GdkX11SelectionInputStream} {ret : GdkFilterReturn} (x : XServer)
      (xevent : XEvent) :
      Reachable abi s → s.filter_installed = true →
      gdk_x11_selection_input_stream_filter_event abi x xevent s = some (s1, ret) →
      Reachable abi s1
  | flush {s s1 : GdkX11SelectionInputStream} :
      Reachable abi s → gdk_x11_selection_input_stream_flush s = some s1 → Reachable abi s1
  | complete {s s1 : GdkX11SelectionInputStream} :
      Reachable abi s → gdk_x11_selection_input_stream_complete s = some s1 →
      Reachable abi s1

/-- What holds in every reachable state: a complete stream has the EOF marker
queued and is deregistered, and a read is parked only on an empty queue of a
stream that is not complete. -/
structure Inv (s : GdkX11SelectionInputStream) : Prop where
  eof_queued : s.complete = true → [] ∈ s.chunks
  parked : s.pending_task ≠ none → s.chunks = [] ∧ s.complete = false
  deregistered : s.complete = true → s.filter_installed = false ∧ s.in_input_streams = false

/-- The stream with the Xlib calls `l` added to its log. -/
def log_xcalls (l : List XCall) (s : GdkX11SelectionInputStream) : GdkX11SelectionInputStream :=
  { s with xcalls := s.xcalls ++ l }

/-- The stream after `g_async_queue_push (priv->chunks, b)`. -/
def push_chunk (b : GBytes) (s : GdkX11SelectionInputStream) : GdkX11SelectionInputStream :=
  { s with chunks := s.chunks ++ [b] }

/-- The stream after `priv->incr = TRUE`. -/
def set_incr (s : GdkX11SelectionInputStream) : GdkX11SelectionInputStream :=
  { s with incr := true }

/-- What is left of `Inv` between a push and the flush that follows it. -/
structure WeakInv (s : GdkX11SelectionInputStream) : Prop where
  eof_queued : s.complete = true → [] ∈ s.chunks
  parked : s.pending_task ≠ none → s.complete = false
  deregistered : s.complete = true → s.filter_installed = false ∧ s.in_input_streams = false

/-- The chunk at the head of the queue has length zero. -/
def HeadEof (s : GdkX11SelectionInputStream) : Prop :=
  s.chunks.head? = some []

/-- The events of an `INCR` transfer as the filter sees them: the announcing
`SelectionNotify` for property `p` under connection `x0`, then one
`PropertyNotify (NewValue)` on the stream's property `prop` for each
connection state in `xs`, then a last one under `xe`. -/
def incr_transfer_events (d : Display) (w : Window) (sel tgt p prop : Atom)
    (x0 : XServer) (xs : List XServer) (xe : XServer) : List (XServer × XEvent) :=
  (x0, XEvent.SelectionNotify d w sel tgt p) ::
    (xs.map (fun x => (x, XEvent.PropertyNotify d w prop PropertyNewValue)) ++
      [(xe, XEvent.PropertyNotify d w prop PropertyNewValue)])

/-- Connection `x` answers a read of property `prop` with the non-empty chunk `W`. -/
def carries_chunk (abi : Abi) (d : Display) (w : Window) (prop : Atom)
    (x : XServer) (W : GBytes) : Prop :=
  W ≠ [] ∧ ∃ t f, get_selection_property abi x d w prop = (some W, t, f)

/-- The event is a `SelectionNotify` on the stream's display and requestor
window whose selection and target atoms are the stream's. -/
def matching_selection_notify (s : GdkX11SelectionInputStream) : XEvent → Prop
  | .SelectionNotify d w selection target _ =>
    d = s.xdisplay ∧ w = s.leader_window ∧ selection = s.xselection ∧ target = s.xtarget
  | _ => False

/-- The event is a `PropertyNotify` the stream acts on: on its display and
requestor window, for its property atom, with state `NewValue`, while the
stream is in `INCR` mode. -/
def handled_property_notify (s : GdkX11SelectionInputStream) : XEvent → Prop
  | .PropertyNotify d w atom state =>
    d = s.xdisplay ∧ w = s.leader_window ∧ s.incr = true ∧ atom = s.xproperty ∧
      state = PropertyNewValue
  | _ => False

/-- The events the stream ignores: another display or window, a
`SelectionNotify` for another selection or target, a `PropertyNotify` outside
`INCR` mode or for another atom or with a state other than `NewValue`, and
every other kind of event. -/
def is_ignored (s : GdkX11SelectionInputStream) (xevent : XEvent) : Prop :=
  xevent.display ≠ s.xdisplay ∨ xevent.window ≠ s.leader_window ∨
    match xevent with
    | .SelectionNotify _ _ selection target _ =>
      selection ≠ s.xselection ∨ target ≠ s.xtarget
    | .PropertyNotify _ _ atom state =>
      s.incr = false ∨ atom ≠ s.xproperty ∨ state ≠ PropertyNewValue
    | .other _ _ => True

/-- The Xlib property calls the read-then-delete discipline asks of one filter
invocation: a read followed by a delete of the event's property for a matching
`SelectionNotify` whose property is not `None` and reads successfully and for
every handled `PropertyNotify`; the read alone for a matching `SelectionNotify`
whose property read fails; nothing for a refusal and for an ignored event. -/
def expected_xcalls (abi : Abi) (x : XServer) (s : GdkX11SelectionInputStream) :
    XEvent → List XCall
  | .SelectionNotify d w selection target p =>
    if d = s.xdisplay ∧ w = s.leader_window ∧ selection = s.xselection ∧
        target = s.xtarget ∧ p ≠ None then
      if (get_selection_property abi x d w p).1.isSome then
        [.XGetWindowProperty d w p, .XDeleteProperty d w p]
      else
        [.XGetWindowProperty d w p]
    else []
  | .PropertyNotify d w atom state =>
    if d = s.xdisplay ∧ w = s.leader_window ∧ s.incr = true ∧ atom = s.xproperty ∧
        state = PropertyNewValue then
      [.XGetWindowProperty d w atom, .XDeleteProperty d w atom]
    else []
  | .other _ _ => []

/-- The operation can take place in state `s`: the event filter runs only while
it is installed. -/
def Op.enabled (s : GdkX11SelectionInputStream) : Op → Prop
  | .filter_event _ _ => s.filter_installed = true
  | _ => True

/-! ## Concrete inputs -/

/-- A successful reply for a property of the given type that holds the bytes
`W` in format 8. -/
def property_reply (type : Atom) (W : GBytes) : XPropertyReply :=
  { status := Success, prop_type := type, prop_format := 8, nitems := W.length,
    data := fun i => W.getD i 0 }

/-- An X connection on which every property read is answered by `r`. -/
def server_with (r : XPropertyReply) : XServer :=
  { XGetWindowProperty := fun _ _ _ => r }

/-- A reply with the given format and number of items, all bytes zero. -/
def format_reply (type : Atom) (format : Int) (nitems : Nat) : XPropertyReply :=
  { status := Success, prop_type := type, prop_format := format, nitems := nitems,
    data := fun _ => 0 }

/-- The bytes of "hello". -/
def hello : GBytes := [104, 101, 108, 108, 111]

/-- The bytes of "hello " and of "world". -/
def hello_world : List GBytes := [[104, 101, 108, 108, 111, 32], [119, 111, 114, 108, 100]]

/-- The connection states of an `INCR` transfer of "hello ", "world". -/
def hello_world_servers : List XServer :=
  hello_world.map (fun W => server_with (property_reply 5 W))

/-- A stream just opened on display 1 with leader window 2; the selection,
target and property atoms are 10, 11 and 12. -/
def fresh_stream : GdkX11SelectionInputStream :=
  gdk_x11_selection_input_stream_new 1 2 10 11 12 0

/-- The stream `fresh_stream` after an `INCR` announcement for property 12. -/
def incr_stream : GdkX11SelectionInputStream :=
  { fresh_stream with
    incr := true
    xcalls := fresh_stream.xcalls ++ [.XGetWindowProperty 1 2 12, .XDeleteProperty 1 2 12] }

/-- A stream whose queue holds the chunks `q` and nothing else has happened. -/
def stream_with_chunks (q : List GBytes) : GdkX11SelectionInputStream :=
  { fresh_stream with chunks := q }

/-! ## Lemmas on the drain -/

theorem fill_buffer_loop_eq_drain (buffer : Option Nat) :
    ∀ (fuel : Nat) (q : List GBytes) (out : List guchar) (count result : Nat),
      count < fuel →
      (gdk_x11_selection_input_stream_fill_buffer_loop buffer fuel q.head?
            { chunks := q.tail, out := out, count := count, result := result }).map fill_finish
        = some { chunks := (drain buffer q count).chunks,
                 out := out ++ (drain buffer q count).out,
                 result := result + (drain buffer q count).result } := by
  intro fuel
  induction fuel with
  | zero => intro q out count result h; omega
  | succ fuel ih =>
    intro q out count result h
    cases q with
    | nil => simp [gdk_x11_selection_input_stream_fill_buffer_loop, drain, fill_finish]
    | cons b rest =>
      simp only [List.head?_cons, List.tail_cons,
        gdk_x11_selection_input_stream_fill_buffer_loop, drain]
      by_cases hc : count = 0
      · simp [hc, fill_finish]
      · simp only [hc, if_false]
        by_cases hb : b.length = 0
        · simp [hb, fill_finish]
        · simp only [hb, if_false]
          by_cases hgt : b.length > count
          · simp only [hgt, if_true]
            have h1 := ih (b.drop count :: rest)
              (out ++ memcpy_guarded buffer b count) (count - count) (result + count)
              (by omega)
            simpa [drain] using h1
          · simp only [hgt, if_false]
            have h1 := ih rest
              (out ++ memcpy_guarded buffer b b.length) (count - b.length)
              (result + b.length) (by omega)
            simpa [List.append_assoc, Nat.add_assoc] using h1

theorem fill_buffer_eq_drain (buffer : Option Nat) (q : List GBytes) (count : Nat)
    (hq : q ≠ []) :
    gdk_x11_selection_input_stream_fill_buffer q buffer count = some (drain buffer q count) := by
  cases q with
  | nil => exact absurd rfl hq
  | cons b rest =>
    have h := fill_buffer_loop_eq_drain buffer (count + 1) (b :: rest) [] count 0 (by omega)
    simp only [List.head?_cons, List.tail_cons, List.nil_append, Nat.zero_add] at h
    simp only [gdk_x11_selection_input_stream_fill_buffer]
    cases hl : gdk_x11_selection_input_stream_fill_buffer_loop buffer (count + 1) (some b)
        { chunks := rest, out := [], count := count, result := 0 } with
    | none => simp [hl] at h
    | some p =>
      obtain ⟨bytes, st⟩ := p
      simp only [hl, Option.map_some', fill_finish, Option.some.injEq] at h
      simp only [Option.some.injEq]
      exact h

theorem queued_before_eof_cons (b : GBytes) (rest : List GBytes) :
    queued_before_eof (b :: rest)
      = if b.length = 0 then 0 else b.length + queued_before_eof rest := by
  unfold queued_before_eof
  by_cases hb : b = []
  · simp [hb, List.takeWhile_cons]
  · have : b.length ≠ 0 := fun h => hb (List.length_eq_zero.mp h)
    simp [hb, this, List.takeWhile_cons]

theorem drain_result (buffer : Option Nat) (q : List GBytes) :
    ∀ count, (drain buffer q count).result = min count (queued_before_eof q) := by
  induction q with
  | nil => intro count; simp [drain, queued_before_eof]
  | cons b rest ih =>
    intro count
    rw [queued_before_eof_cons]
    simp only [drain]
    by_cases hc : count = 0
    · simp [hc]
    · by_cases hb : b.length = 0
      · simp [hc, hb]
      · by_cases hgt : b.length > count
        · simp only [hc, hb, hgt, if_true, if_false]; omega
        · simp only [hc, hb, hgt, if_false, ih]; omega

theorem drain_result_le (buffer : Option Nat) (q : List GBytes) (count : Nat) :
    (drain buffer q count).result ≤ count := by
  rw [drain_result]; exact Nat.min_le_left _ _

theorem drain_out (buffer : Option Nat) (q : List GBytes) :
    ∀ count, (drain buffer q count).out
      = if buffer.isSome then q.flatten.take (drain buffer q count).result else [] := by
  induction q with
  | nil => intro count; simp [drain]
  | cons b rest ih =>
    intro count
    simp only [drain]
    by_cases hc : count = 0
    · simp [hc]
    · by_cases hb : b.length = 0
      · have : b = [] := List.length_eq_zero.mp hb
        simp [hc, this]
      · by_cases hgt : b.length > count
        · simp only [hc, hb, hgt, if_true, if_false, memcpy_guarded, List.flatten_cons]
          split
          · rw [List.take_append_of_le_length (by omega)]
          · rfl
        · simp only [hc, hb, hgt, if_false, memcpy_guarded, List.flatten_cons, ih]
          split
          · rw [List.take_append_eq_append_take]
            simp [List.take_of_length_le]
          · rfl

theorem drain_flatten (buffer : Option Nat) (q : List GBytes) :
    ∀ count, (drain buffer q count).chunks.flatten
      = q.flatten.drop (drain buffer q count).result := by
  induction q with
  | nil => intro count; simp [drain]
  | cons b rest ih =>
    intro count
    simp only [drain]
    by_cases hc : count = 0
    · simp [hc]
    · by_cases hb : b.length = 0
      · have : b = [] := List.length_eq_zero.mp hb
        simp [hc, this]
      · by_cases hgt : b.length > count
        · simp only [hc, hb, hgt, if_true, if_false, List.flatten_cons]
          rw [List.drop_append_of_le_length (by omega)]
        · simp only [hc, hb, hgt, if_false, List.flatten_cons, ih]
          rw [List.drop_append_eq_append_drop]
          simp [List.drop_of_length_le]

theorem drain_result_eq_zero (buffer : Option Nat) (b : GBytes) (rest : List GBytes)
    (count : Nat) (hc : 0 < count) :
    (drain buffer (b :: rest) count).result = 0 ↔ b = [] := by
  have hc0 : count ≠ 0 := by omega
  simp only [drain]
  by_cases hb : b.length = 0
  · have : b = [] := List.length_eq_zero.mp hb
    simp [hc0, this]
  · have hne : b ≠ [] := fun h => hb (by simp [h])
    by_cases hgt : b.length > count
    · simp [hc0, hb, hgt, hne]
    · simp [hc0, hb, hgt, hne]

theorem drain_head_nil (buffer : Option Nat) (rest : List GBytes) (count : Nat) :
    ∃ rest', (drain buffer ([] :: rest) count).chunks = [] :: rest' ∧
      (drain buffer ([] :: rest) count).result = 0 ∧
      (drain buffer ([] :: rest) count).out = [] := by
  simp only [drain]
  by_cases hc : count = 0
  · exact ⟨rest, by simp [hc]⟩
  · exact ⟨[] :: rest, by simp [hc]⟩

theorem drain_mem_nil (buffer : Option Nat) (q : List GBytes) :
    ∀ count, [] ∈ q → [] ∈ (drain buffer q count).chunks := by
  induction q with
  | nil => intro count h; simp at h
  | cons b rest ih =>
    intro count h
    simp only [drain]
    by_cases hc : count = 0
    · simpa [hc] using h
    · by_cases hb : b.length = 0
      · have : b = [] := List.length_eq_zero.mp hb
        simp [hc, this]
      · have hne : b ≠ [] := fun h => hb (by simp [h])
        have hr : [] ∈ rest := by
          rcases List.mem_cons.mp h with h | h
          · exact absurd h.symm hne
          · exact h
        by_cases hgt : b.length > count
        · simp only [hc, hb, hgt, if_true, if_false]
          exact List.mem_cons_of_mem _ hr
        · simp only [hc, hb, hgt, if_false]
          exact ih _ hr

theorem drain_buffer_irrelevant (buffer buffer' : Option Nat) (q : List GBytes) :
    ∀ count, (drain buffer q count).chunks = (drain buffer' q count).chunks ∧
      (drain buffer q count).result = (drain buffer' q count).result := by
  induction q with
  | nil => intro count; simp [drain]
  | cons b rest ih =>
    intro count
    simp only [drain]
    by_cases hc : count = 0
    · simp [hc]
    · by_cases hb : b.length = 0
      · simp [hc, hb]
      · by_cases hgt : b.length > count
        · simp [hc, hb, hgt]
        · simp only [hc, hb, hgt, if_false]
          exact ⟨(ih _).1, by rw [(ih _).2]⟩

theorem data_before_eof_cons (b : GBytes) (rest : List GBytes) :
    data_before_eof (b :: rest) = if b.length = 0 then [] else b ++ data_before_eof rest := by
  unfold data_before_eof
  by_cases hb : b = []
  · simp [hb, List.takeWhile_cons]
  · have : b.length ≠ 0 := fun h => hb (List.length_eq_zero.mp h)
    simp [hb, this, List.takeWhile_cons]

theorem queued_before_eof_eq (q : List GBytes) :
    queued_before_eof q = (data_before_eof q).length := rfl

theorem drain_out_data (buffer : Nat) (q : List GBytes) :
    ∀ count, (drain (some buffer) q count).out
      = (data_before_eof q).take (drain (some buffer) q count).result := by
  induction q with
  | nil => intro count; simp [drain]
  | cons b rest ih =>
    intro count
    rw [data_before_eof_cons]
    simp only [drain]
    by_cases hc : count = 0
    · simp [hc]
    · by_cases hb : b.length = 0
      · simp [hc, hb]
      · by_cases hgt : b.length > count
        · simp only [hc, hb, hgt, if_true, if_false, memcpy_guarded, Option.isSome_some]
          rw [List.take_append_of_le_length (by omega)]
        · simp only [hc, hb, hgt, if_false, memcpy_guarded, Option.isSome_some, if_true, ih]
          rw [List.take_append_eq_append_take]
          simp [List.take_of_length_le]

theorem drain_data_before_eof (buffer : Option Nat) (q : List GBytes) :
    ∀ count, data_before_eof (drain buffer q count).chunks
      = (data_before_eof q).drop (drain buffer q count).result := by
  induction q with
  | nil => intro count; simp [drain]
  | cons b rest ih =>
    intro count
    simp only [drain]
    by_cases hc : count = 0
    · simp [hc]
    · by_cases hb : b.length = 0
      · simp [hc, hb, data_before_eof_cons]
      · by_cases hgt : b.length > count
        · simp only [hc, hb, hgt, if_true, if_false]
          rw [data_before_eof_cons, data_before_eof_cons]
          have : (List.drop count b).length ≠ 0 := by simp; omega
          simp only [this, hb, if_false]
          rw [List.drop_append_of_le_length (by omega)]
        · simp only [hc, hb, hgt, if_false, ih]
          rw [data_before_eof_cons]
          simp only [hb, if_false]
          rw [List.drop_append_eq_append_drop]
          simp [List.drop_of_length_le]

theorem queued_before_eof_le (q : List GBytes) :
    queued_before_eof q ≤ q.flatten.length := by
  induction q with
  | nil => simp [queued_before_eof]
  | cons b rest ih =>
    rw [queued_before_eof_cons]
    simp only [List.flatten_cons, List.length_append]
    split <;> omega

/-! ## The chunk splitting law and the result of a read -/

theorem read_eq_drain (s : GdkX11SelectionInputStream) (buffer : Option Nat) (count : Nat)
    (hq : s.chunks ≠ []) :
    gdk_x11_selection_input_stream_read s buffer count
      = some { stream := { s with chunks := (drain buffer s.chunks count).chunks },
               ret := (drain buffer s.chunks count).result,
               out := (drain buffer s.chunks count).out } := by
  simp [gdk_x11_selection_input_stream_read, fill_buffer_eq_drain buffer s.chunks count hq]

/-- C2 (chunk splitting law): on a queue `W1 :: rest`, a call of `fill_buffer`
with `0 < count < |W1|` returns `count`, stores `W1[0..count]` and leaves the
queue `W1[count..] :: rest`; for any `count` the call returns
`n = min count (bytes queued before the first zero-length chunk)`, stores the
first `n` bytes of the concatenated queue, and the concatenation of the queue
left behind is the old concatenation without its first `n` bytes. -/
theorem chunk_splitting_law (W1 : GBytes) (rest : List GBytes) (buffer count : Nat) :
    (0 < count → count < W1.length →
      gdk_x11_selection_input_stream_fill_buffer (W1 :: rest) (some buffer) count
        = some { chunks := W1.drop count :: rest, out := W1.take count, result := count }) ∧
    (∃ r, gdk_x11_selection_input_stream_fill_buffer (W1 :: rest) (some buffer) count = some r ∧
      r.result = min count (queued_before_eof (W1 :: rest)) ∧
      r.out = (W1 :: rest).flatten.take r.result ∧
      r.chunks.flatten = (W1 :: rest).flatten.drop r.result) := by
  have hq : W1 :: rest ≠ [] := List.cons_ne_nil _ _
  rw [fill_buffer_eq_drain (some buffer) (W1 :: rest) count hq]
  refine ⟨?_, _, rfl, drain_result _ _ _, ?_, drain_flatten _ _ _⟩
  · intro h0 hlt
    have h1 : count ≠ 0 := by omega
    have h2 : W1.length ≠ 0 := by omega
    simp [drain, h1, h2, hlt, memcpy_guarded]
  · simpa using drain_out (some buffer) (W1 :: rest) count

/-- C2 at the chunks "hello", "wo" and a count of 2: the call returns 2, stores
"he" and leaves "llo", "wo". -/
theorem chunk_splitting_law_witness :
    gdk_x11_selection_input_stream_fill_buffer [[104, 101, 108, 108, 111], [119, 111]] (some 0) 2
      = some { chunks := [[108, 108, 111], [119, 111]], out := [104, 101], result := 2 } :=
  (chunk_splitting_law [104, 101, 108, 108, 111] [[119, 111]] 0 2).1 (by decide) (by decide)

/-- C4 as stated fails for `count = 0`: after a single transfer of "hello" the
queue is "hello", EOF; a read with a count of 0 returns 0 although the chunk
at the head of the queue is not the EOF marker. -/
theorem read_zero_count_not_eof :
    ∃ s1 r,
      filter_events lp64
          [(server_with (property_reply 5 hello), .SelectionNotify 1 2 10 11 12)]
          fresh_stream = some s1 ∧
      s1.chunks = [hello, []] ∧
      gdk_x11_selection_input_stream_read s1 (some 0) 0 = some r ∧
      r.ret = 0 ∧ r.stream.chunks = [hello, []] ∧ hello.length ≠ 0 :=
  ⟨_, _, rfl, rfl, rfl, rfl, rfl, by decide⟩

/-- C4, amended: a read with `count > 0` on a non-empty queue returns; its
result is the number of bytes taken off the queue, which is the number of
bytes stored when the buffer is not null; it is never negative, and it is 0
exactly when the chunk at the head of the queue has length zero. -/
theorem read_zero_only_at_eof (s : GdkX11SelectionInputStream) (b : GBytes)
    (rest : List GBytes) (hq : s.chunks = b :: rest) (buffer : Option Nat) (count : Nat)
    (hc : 0 < count) :
    ∃ r, gdk_x11_selection_input_stream_read s buffer count = some r ∧
      r.stream.chunks.flatten = s.chunks.flatten.drop r.ret.toNat ∧
      (buffer.isSome → r.ret = r.out.length) ∧ 0 ≤ r.ret ∧ (r.ret = 0 ↔ b.length = 0) := by
  have hne : s.chunks ≠ [] := by rw [hq]; exact List.cons_ne_nil _ _
  refine ⟨_, read_eq_drain s buffer count hne, ?_, ?_, ?_, ?_⟩
  · simpa using drain_flatten buffer s.chunks count
  · intro hb
    have ho := drain_out buffer s.chunks count
    simp only [hb, if_true] at ho
    have hle : (drain buffer s.chunks count).result ≤ s.chunks.flatten.length := by
      rw [drain_result]
      have := queued_before_eof_le s.chunks
      omega
    simp only [ho, List.length_take, Nat.min_eq_left hle]
  · exact Int.ofNat_nonneg _
  · rw [hq]
    have h := drain_result_eq_zero buffer b rest count hc
    simp only [Int.natCast_eq_zero]
    rw [h]
    exact List.length_eq_zero.symm

/-- C4 amended, at the queue "h", EOF and a count of 2. -/
theorem read_zero_only_at_eof_witness :
    ∃ r, gdk_x11_selection_input_stream_read (stream_with_chunks [[104], []]) (some 0) 2 = some r ∧
      r.stream.chunks.flatten
        = (stream_with_chunks [[104], []]).chunks.flatten.drop r.ret.toNat ∧
      ((some 0 : Option Nat).isSome → r.ret = r.out.length) ∧ 0 ≤ r.ret ∧
      (r.ret = 0 ↔ ([104] : GBytes).length = 0) :=
  read_zero_only_at_eof (stream_with_chunks [[104], []]) [104] [[]] rfl (some 0) 2 (by decide)

/-! ## Property reads -/

/-- C10 (property byte length by format): a successful property read with a
type other than `None` and `nitems` items gives a chunk of `nitems` bytes for
format 8, `2 * nitems` for format 16 and `sizeof (long) * nitems` for format
32, reporting the type and format read; for any other format the read fails
with no chunk, type `None` and format 0. -/
theorem property_byte_length (abi : Abi) (x : XServer) (display : Display) (owner : Window)
    (property : Atom)
    (hs : (x.XGetWindowProperty display owner property).status = Success)
    (ht : (x.XGetWindowProperty display owner property).prop_type ≠ None) :
    ((x.XGetWindowProperty display owner property).prop_format = 8 →
      ∃ b, get_selection_property abi x display owner property
          = (some b, (x.XGetWindowProperty display owner property).prop_type, 8) ∧
        b.length = (x.XGetWindowProperty display owner property).nitems) ∧
    ((x.XGetWindowProperty display owner property).prop_format = 16 →
      ∃ b, get_selection_property abi x display owner property
          = (some b, (x.XGetWindowProperty display owner property).prop_type, 16) ∧
        b.length = 2 * (x.XGetWindowProperty display owner property).nitems) ∧
    ((x.XGetWindowProperty display owner property).prop_format = 32 →
      ∃ b, get_selection_property abi x display owner property
          = (some b, (x.XGetWindowProperty display owner property).prop_type, 32) ∧
        b.length = abi.sizeof_long * (x.XGetWindowProperty display owner property).nitems) ∧
    ((x.XGetWindowProperty display owner property).prop_format ≠ 8 →
      (x.XGetWindowProperty display owner property).prop_format ≠ 16 →
      (x.XGetWindowProperty display owner property).prop_format ≠ 32 →
      get_selection_property abi x display owner property = (none, None, 0)) := by
  refine ⟨?_, ?_, ?_, ?_⟩
  · intro hf
    refine ⟨g_bytes_new_with_free_func (x.XGetWindowProperty display owner property).data
      (x.XGetWindowProperty display owner property).nitems, ?_, ?_⟩
    · simp [get_selection_property, hs, ht, hf]
    · simp [g_bytes_new_with_free_func]
  · intro hf
    refine ⟨g_bytes_new_with_free_func (x.XGetWindowProperty display owner property).data
      (sizeof_short * (x.XGetWindowProperty display owner property).nitems), ?_, ?_⟩
    · simp [get_selection_property, hs, ht, hf]
    · simp [g_bytes_new_with_free_func, sizeof_short]
  · intro hf
    refine ⟨g_bytes_new_with_free_func (x.XGetWindowProperty display owner property).data
      (abi.sizeof_long * (x.XGetWindowProperty display owner property).nitems), ?_, ?_⟩
    · simp [get_selection_property, hs, ht, hf]
    · simp [g_bytes_new_with_free_func]
  · intro h8 h16 h32
    simp [get_selection_property, hs, ht, h8, h16, h32]

/-- C10 at `nitems = 3`, `format = 32` on an LP64 build: the chunk has 24
bytes. -/
theorem property_byte_length_witness :
    ∃ b, get_selection_property lp64 (server_with (format_reply 5 32 3)) 1 2 12
        = (some b, 5, 32) ∧ b.length = 24 :=
  (property_byte_length lp64 (server_with (format_reply 5 32 3)) 1 2 12 rfl
    (by decide)).2.2.1 rfl

/-! ## Flush, completion and the filter, case by case -/

theorem flush_of_no_pending (s : GdkX11SelectionInputStream) (h : s.pending_task = none) :
    gdk_x11_selection_input_stream_flush s = some s := by
  simp [gdk_x11_selection_input_stream_flush, h]

theorem flush_of_no_data (s : GdkX11SelectionInputStream)
    (h : gdk_x11_selection_input_stream_has_data s = false) :
    gdk_x11_selection_input_stream_flush s = some s := by
  simp [gdk_x11_selection_input_stream_flush, h]

theorem flush_of_pending (s : GdkX11SelectionInputStream) (task : GTask)
    (h : s.pending_task = some task) (hq : s.chunks ≠ []) :
    gdk_x11_selection_input_stream_flush s
      = some { s with
          chunks := (drain s.pending_data s.chunks s.pending_size).chunks
          task_returns := s.task_returns ++
            [{ task := task, value := (drain s.pending_data s.chunks s.pending_size).result,
               data := (drain s.pending_data s.chunks s.pending_size).out }]
          pending_task := none
          pending_data := none
          pending_size := 0 } := by
  have hd : gdk_x11_selection_input_stream_has_data s = true := by
    cases hc : s.chunks with
    | nil => exact absurd hc hq
    | cons b rest => simp [gdk_x11_selection_input_stream_has_data, hc]
  simp [gdk_x11_selection_input_stream_flush, hd, h,
    fill_buffer_eq_drain s.pending_data s.chunks s.pending_size hq]

theorem complete_of_complete (s : GdkX11SelectionInputStream) (h : s.complete = true) :
    gdk_x11_selection_input_stream_complete s = some s := by
  simp [gdk_x11_selection_input_stream_complete, h]

theorem complete_of_not_complete (s : GdkX11SelectionInputStream) (h : s.complete = false) :
    gdk_x11_selection_input_stream_complete s
      = (gdk_x11_selection_input_stream_flush
          { s with complete := true, chunks := s.chunks ++ [[]] }).map
        (fun s3 => { s3 with in_input_streams := false, filter_installed := false }) := by
  simp only [gdk_x11_selection_input_stream_complete, h]
  cases gdk_x11_selection_input_stream_flush
      { s with complete := true, chunks := s.chunks ++ [[]] } <;> simp

theorem complete_of_no_pending (s : GdkX11SelectionInputStream) (h : s.complete = false)
    (hp : s.pending_task = none) :
    gdk_x11_selection_input_stream_complete s
      = some { s with complete := true, chunks := s.chunks ++ [[]],
                      in_input_streams := false, filter_installed := false } := by
  rw [complete_of_not_complete s h,
    flush_of_no_pending { s with complete := true, chunks := s.chunks ++ [[]] } hp]
  rfl

theorem read_async_of_data (s : GdkX11SelectionInputStream) (buffer : Option Nat)
    (count : Nat) (task : GTask) (hq : s.chunks ≠ []) :
    gdk_x11_selection_input_stream_read_async s buffer count task
      = some { s with
          chunks := (drain buffer s.chunks count).chunks
          task_returns := s.task_returns ++
            [{ task := task, value := (drain buffer s.chunks count).result,
               data := (drain buffer s.chunks count).out }] } := by
  have hd : gdk_x11_selection_input_stream_has_data s = true := by
    cases hc : s.chunks with
    | nil => exact absurd hc hq
    | cons b rest => simp [gdk_x11_selection_input_stream_has_data, hc]
  simp [gdk_x11_selection_input_stream_read_async, hd,
    fill_buffer_eq_drain buffer s.chunks count hq]

theorem read_async_of_no_data (s : GdkX11SelectionInputStream) (buffer : Option Nat)
    (count : Nat) (task : GTask) (hd : gdk_x11_selection_input_stream_has_data s = false) :
    gdk_x11_selection_input_stream_read_async s buffer count task
      = some { s with pending_data := buffer, pending_size := count,
                      pending_task := some task } := by
  simp [gdk_x11_selection_input_stream_read_async, hd]

theorem filter_event_refused (abi : Abi) (x : XServer) (s : GdkX11SelectionInputStream) :
    gdk_x11_selection_input_stream_filter_event abi x
        (.SelectionNotify s.xdisplay s.leader_window s.xselection s.xtarget None) s
      = (gdk_x11_selection_input_stream_complete s).map
          (fun s1 => (s1, GdkFilterReturn.GDK_FILTER_REMOVE)) := by
  simp only [gdk_x11_selection_input_stream_filter_event, XEvent.display, XEvent.window]
  cases gdk_x11_selection_input_stream_complete s <;> simp

theorem filter_event_selection_failed (abi : Abi) (x : XServer)
    (s : GdkX11SelectionInputStream) (property : Atom) (hp : property ≠ None)
    (hget : (get_selection_property abi x s.xdisplay s.leader_window property).1 = none) :
    gdk_x11_selection_input_stream_filter_event abi x
        (.SelectionNotify s.xdisplay s.leader_window s.xselection s.xtarget property) s
      = (gdk_x11_selection_input_stream_complete
          { s with xcalls := s.xcalls ++
              [.XGetWindowProperty s.xdisplay s.leader_window property] }).map
          (fun s1 => (s1, GdkFilterReturn.GDK_FILTER_REMOVE)) := by
  simp only [gdk_x11_selection_input_stream_filter_event, XEvent.display, XEvent.window]
  rcases hg : get_selection_property abi x s.xdisplay s.leader_window property
    with ⟨bytes, type, format⟩
  rw [hg] at hget
  simp only at hget
  subst hget
  cases gdk_x11_selection_input_stream_complete
    { s with xcalls := s.xcalls ++
        [.XGetWindowProperty s.xdisplay s.leader_window property] } <;> simp [hp]

theorem filter_event_selection_single (abi : Abi) (x : XServer)
    (s : GdkX11SelectionInputStream) (property : Atom) (hp : property ≠ None)
    (b : GBytes) (type : Atom) (format : Int)
    (hget : get_selection_property abi x s.xdisplay s.leader_window property
      = (some b, type, format))
    (hty : type ≠ abi.INCR) :
    gdk_x11_selection_input_stream_filter_event abi x
        (.SelectionNotify s.xdisplay s.leader_window s.xselection s.xtarget property) s
      = (gdk_x11_selection_input_stream_complete
          { s with
            xcalls := s.xcalls ++ [.XGetWindowProperty s.xdisplay s.leader_window property]
            chunks := s.chunks ++ [b] }).map
          (fun s1 =>
            ({ s1 with xcalls := s1.xcalls ++
                [.XDeleteProperty s.xdisplay s.leader_window property] },
              GdkFilterReturn.GDK_FILTER_REMOVE)) := by
  simp only [gdk_x11_selection_input_stream_filter_event, XEvent.display, XEvent.window, hget]
  cases gdk_x11_selection_input_stream_complete
    { s with
      xcalls := s.xcalls ++ [.XGetWindowProperty s.xdisplay s.leader_window property]
      chunks := s.chunks ++ [b] } <;> simp [hp, hty]

theorem filter_event_selection_incr (abi : Abi) (x : XServer)
    (s : GdkX11SelectionInputStream) (property : Atom) (hp : property ≠ None)
    (b : GBytes) (format : Int)
    (hget : get_selection_property abi x s.xdisplay s.leader_window property
      = (some b, abi.INCR, format)) :
    gdk_x11_selection_input_stream_filter_event abi x
        (.SelectionNotify s.xdisplay s.leader_window s.xselection s.xtarget property) s
      = (gdk_x11_selection_input_stream_flush
          { s with
            xcalls := s.xcalls ++ [.XGetWindowProperty s.xdisplay s.leader_window property]
            incr := true }).map
          (fun s1 =>
            ({ s1 with xcalls := s1.xcalls ++
                [.XDeleteProperty s.xdisplay s.leader_window property] },
              GdkFilterReturn.GDK_FILTER_REMOVE)) := by
  simp only [gdk_x11_selection_input_stream_filter_event, XEvent.display, XEvent.window, hget]
  cases gdk_x11_selection_input_stream_flush
    { s with
      xcalls := s.xcalls ++ [.XGetWindowProperty s.xdisplay s.leader_window property]
      incr := true } <;> simp [hp]

theorem filter_event_property_chunk (abi : Abi) (x : XServer)
    (s : GdkX11SelectionInputStream) (hincr : s.incr = true)
    (b : GBytes) (type : Atom) (format : Int)
    (hget : get_selection_property abi x s.xdisplay s.leader_window s.xproperty
      = (some b, type, format))
    (hb : b ≠ []) (hty : type ≠ None) :
    gdk_x11_selection_input_stream_filter_event abi x
        (.PropertyNotify s.xdisplay s.leader_window s.xproperty PropertyNewValue) s
      = (gdk_x11_selection_input_stream_flush
          { s with
            xcalls := s.xcalls ++
              [.XGetWindowProperty s.xdisplay s.leader_window s.xproperty]
            chunks := s.chunks ++ [b] }).map
          (fun s1 =>
            ({ s1 with xcalls := s1.xcalls ++
                [.XDeleteProperty s.xdisplay s.leader_window s.xproperty] },
              GdkFilterReturn.GDK_FILTER_CONTINUE)) := by
  have hb0 : b.length ≠ 0 := fun h => hb (List.length_eq_zero.mp h)
  simp only [gdk_x11_selection_input_stream_filter_event, XEvent.display, XEvent.window, hget]
  cases gdk_x11_selection_input_stream_flush
    { s with
      xcalls := s.xcalls ++ [.XGetWindowProperty s.xdisplay s.leader_window s.xproperty]
      chunks := s.chunks ++ [b] } <;> simp [hincr, hb0, hty]

theorem filter_event_property_end (abi : Abi) (x : XServer)
    (s : GdkX11SelectionInputStream) (hincr : s.incr = true)
    (hget : ∀ b, (get_selection_property abi x s.xdisplay s.leader_window s.xproperty).1
        = some b →
      b.length = 0 ∨
      (get_selection_property abi x s.xdisplay s.leader_window s.xproperty).2.1 = None) :
    gdk_x11_selection_input_stream_filter_event abi x
        (.PropertyNotify s.xdisplay s.leader_window s.xproperty PropertyNewValue) s
      = (gdk_x11_selection_input_stream_complete
          { s with xcalls := s.xcalls ++
              [.XGetWindowProperty s.xdisplay s.leader_window s.xproperty] }).map
          (fun s1 =>
            ({ s1 with xcalls := s1.xcalls ++
                [.XDeleteProperty s.xdisplay s.leader_window s.xproperty] },
              GdkFilterReturn.GDK_FILTER_CONTINUE)) := by
  simp only [gdk_x11_selection_input_stream_filter_event, XEvent.display, XEvent.window]
  rcases hg : get_selection_property abi x s.xdisplay s.leader_window s.xproperty
    with ⟨bytes, type, format⟩
  rw [hg] at hget
  simp only at hget
  cases bytes with
  | none =>
    cases gdk_x11_selection_input_stream_complete
      { s with xcalls := s.xcalls ++
          [.XGetWindowProperty s.xdisplay s.leader_window s.xproperty] } <;> simp [hincr]
  | some b =>
    have h : b = [] ∨ type = None := (hget b rfl).imp List.length_eq_zero.mp id
    cases gdk_x11_selection_input_stream_complete
      { s with xcalls := s.xcalls ++
          [.XGetWindowProperty s.xdisplay s.leader_window s.xproperty] } <;> simp [hincr, h]

theorem log_xcalls_nil (s : GdkX11SelectionInputStream) : log_xcalls [] s = s := by
  simp [log_xcalls]

/-- Every filter invocation either leaves the stream alone or is one of four
compositions of logging, pushing a chunk, setting `incr`, flushing and
completing. -/
theorem filter_event_shape (abi : Abi) (x : XServer) (xevent : XEvent)
    (s : GdkX11SelectionInputStream) :
    gdk_x11_selection_input_stream_filter_event abi x xevent s
        = some (s, .GDK_FILTER_CONTINUE) ∨
    ∃ (l1 l2 : List XCall) (ret : GdkFilterReturn),
      gdk_x11_selection_input_stream_filter_event abi x xevent s
          = (gdk_x11_selection_input_stream_complete (log_xcalls l1 s)).map
              (fun t => (log_xcalls l2 t, ret)) ∨
      (∃ b, b ≠ [] ∧ gdk_x11_selection_input_stream_filter_event abi x xevent s
          = (gdk_x11_selection_input_stream_flush (push_chunk b (log_xcalls l1 s))).map
              (fun t => (log_xcalls l2 t, ret))) ∨
      gdk_x11_selection_input_stream_filter_event abi x xevent s
          = (gdk_x11_selection_input_stream_flush (set_incr (log_xcalls l1 s))).map
              (fun t => (log_xcalls l2 t, ret)) ∨
      (∃ b, gdk_x11_selection_input_stream_filter_event abi x xevent s
          = (gdk_x11_selection_input_stream_complete (push_chunk b (log_xcalls l1 s))).map
              (fun t => (log_xcalls l2 t, ret))) := by
  by_cases hdw : xevent.display ≠ s.xdisplay ∨ xevent.window ≠ s.leader_window
  · left
    simp [gdk_x11_selection_input_stream_filter_event, hdw]
  · have hd : xevent.display = s.xdisplay := by
      by_contra h; exact hdw (Or.inl h)
    have hw : xevent.window = s.leader_window := by
      by_contra h; exact hdw (Or.inr h)
    cases xevent with
    | other d w => left; simp [gdk_x11_selection_input_stream_filter_event]
    | PropertyNotify d w atom state =>
      simp only [XEvent.display, XEvent.window] at hd hw
      subst hd hw
      by_cases hg : s.incr = false ∨ atom ≠ s.xproperty ∨ state ≠ PropertyNewValue
      · left
        simp [gdk_x11_selection_input_stream_filter_event, hg]
      · have hincr : s.incr = true := by
          cases hi : s.incr with
          | true => rfl
          | false => exact absurd (Or.inl hi) hg
        have ha : atom = s.xproperty := by
          by_contra h; exact hg (Or.inr (Or.inl h))
        have hst : state = PropertyNewValue := by
          by_contra h; exact hg (Or.inr (Or.inr h))
        subst ha hst
        right
        refine ⟨[.XGetWindowProperty s.xdisplay s.leader_window s.xproperty],
          [.XDeleteProperty s.xdisplay s.leader_window s.xproperty], .GDK_FILTER_CONTINUE, ?_⟩
        by_cases hend : ∀ b,
            (get_selection_property abi x s.xdisplay s.leader_window s.xproperty).1 = some b →
            b.length = 0 ∨
            (get_selection_property abi x s.xdisplay s.leader_window s.xproperty).2.1 = None
        · left
          exact filter_event_property_end abi x s hincr hend
        · right; left
          rcases hgp : get_selection_property abi x s.xdisplay s.leader_window s.xproperty
            with ⟨bytes, type, format⟩
          rw [hgp] at hend
          simp only [not_forall, not_or] at hend
          obtain ⟨b, hb, hb0, hty⟩ := hend
          subst hb
          have hbne : b ≠ [] := fun h => hb0 (by simp [h])
          exact ⟨b, hbne, filter_event_property_chunk abi x s hincr b type format hgp hbne hty⟩
    | SelectionNotify d w selection target property =>
      simp only [XEvent.display, XEvent.window] at hd hw
      subst hd hw
      by_cases hg : s.xselection ≠ selection ∨ s.xtarget ≠ target
      · left
        simp [gdk_x11_selection_input_stream_filter_event, hg]
      · have hsel : s.xselection = selection := by
          by_contra h; exact hg (Or.inl h)
        have htg : s.xtarget = target := by
          by_contra h; exact hg (Or.inr h)
        subst hsel htg
        right
        by_cases hp : property = None
        · subst hp
          refine ⟨[], [], .GDK_FILTER_REMOVE, Or.inl ?_⟩
          rw [filter_event_refused]
          simp [log_xcalls_nil]
        · rcases hgp : get_selection_property abi x s.xdisplay s.leader_window property
            with ⟨bytes, type, format⟩
          cases bytes with
          | none =>
            refine ⟨[.XGetWindowProperty s.xdisplay s.leader_window property], [],
              .GDK_FILTER_REMOVE, Or.inl ?_⟩
            rw [filter_event_selection_failed abi x s property hp (by rw [hgp])]
            simp [log_xcalls_nil, log_xcalls]
          | some b =>
            refine ⟨[.XGetWindowProperty s.xdisplay s.leader_window property],
              [.XDeleteProperty s.xdisplay s.leader_window property], .GDK_FILTER_REMOVE, ?_⟩
            by_cases hty : type = abi.INCR
            · subst hty
              right; right; left
              exact filter_event_selection_incr abi x s property hp b format hgp
            · right; right; right
              exact ⟨b, filter_event_selection_single abi x s property hp b type format hgp hty⟩

/-! ## End of stream is sticky -/

theorem read_some_ne_nil (s : GdkX11SelectionInputStream) (buffer : Option Nat) (count : Nat)
    (r : ReadResult) (h : gdk_x11_selection_input_stream_read s buffer count = some r) :
    s.chunks ≠ [] := by
  intro hq
  simp [gdk_x11_selection_input_stream_read, gdk_x11_selection_input_stream_fill_buffer, hq] at h

theorem headEof_iff (s : GdkX11SelectionInputStream) :
    HeadEof s ↔ ∃ rest, s.chunks = [] :: rest := by
  unfold HeadEof
  cases s.chunks with
  | nil => simp
  | cons b rest => simp

theorem read_of_headEof (s : GdkX11SelectionInputStream) (buffer : Option Nat) (count : Nat)
    (h : HeadEof s) :
    ∃ r, gdk_x11_selection_input_stream_read s buffer count = some r ∧ r.ret = 0 ∧
      r.out = [] ∧ HeadEof r.stream := by
  obtain ⟨rest, hq⟩ := (headEof_iff s).mp h
  have hne : s.chunks ≠ [] := by rw [hq]; exact List.cons_ne_nil _ _
  obtain ⟨rest', h1, h2, h3⟩ := drain_head_nil buffer rest count
  refine ⟨_, read_eq_drain s buffer count hne, ?_, ?_, ?_⟩
  · simp [hq, h2]
  · simp [hq, h3]
  · simp [HeadEof, hq, h1]

theorem headEof_of_read_zero (s : GdkX11SelectionInputStream) (buffer : Option Nat)
    (count : Nat) (hc : 0 < count) (r : ReadResult)
    (h : gdk_x11_selection_input_stream_read s buffer count = some r) (h0 : r.ret = 0) :
    HeadEof r.stream := by
  have hne := read_some_ne_nil s buffer count r h
  cases hq : s.chunks with
  | nil => exact absurd hq hne
  | cons b rest =>
    rw [read_eq_drain s buffer count hne] at h
    simp only [Option.some.injEq] at h
    subst h
    simp only [Int.natCast_eq_zero, hq] at h0
    have hb : b = [] := (drain_result_eq_zero buffer b rest count hc).mp h0
    subst hb
    obtain ⟨rest', h1, _, _⟩ := drain_head_nil buffer rest count
    simp [HeadEof, hq, h1]

theorem flush_of_headEof (s : GdkX11SelectionInputStream) (h : HeadEof s) :
    ∃ s1, gdk_x11_selection_input_stream_flush s = some s1 ∧ HeadEof s1 := by
  cases hp : s.pending_task with
  | none => exact ⟨s, flush_of_no_pending s hp, h⟩
  | some task =>
    obtain ⟨rest, hq⟩ := (headEof_iff s).mp h
    have hne : s.chunks ≠ [] := by rw [hq]; exact List.cons_ne_nil _ _
    obtain ⟨rest', h1, _, _⟩ := drain_head_nil s.pending_data rest s.pending_size
    refine ⟨_, flush_of_pending s task hp hne, ?_⟩
    simp [HeadEof, hq, h1]

theorem headEof_push_chunk (b : GBytes) (s : GdkX11SelectionInputStream) (h : HeadEof s) :
    HeadEof (push_chunk b s) := by
  obtain ⟨rest, hq⟩ := (headEof_iff s).mp h
  simp [HeadEof, push_chunk, hq]

theorem complete_of_headEof (s : GdkX11SelectionInputStream) (h : HeadEof s) :
    ∃ s1, gdk_x11_selection_input_stream_complete s = some s1 ∧ HeadEof s1 := by
  cases hc : s.complete with
  | true => exact ⟨s, complete_of_complete s hc, h⟩
  | false =>
    rw [complete_of_not_complete s hc]
    have h2 : HeadEof { s with complete := true, chunks := s.chunks ++ [[]] } :=
      headEof_push_chunk [] { s with complete := true } h
    obtain ⟨s1, hs1, hh⟩ := flush_of_headEof _ h2
    exact ⟨{ s1 with in_input_streams := false, filter_installed := false },
      by rw [hs1]; rfl, hh⟩

theorem read_async_of_headEof (s : GdkX11SelectionInputStream) (buffer : Option Nat)
    (count : Nat) (task : GTask) (h : HeadEof s) :
    ∃ s1, gdk_x11_selection_input_stream_read_async s buffer count task = some s1 ∧
      HeadEof s1 := by
  obtain ⟨rest, hq⟩ := (headEof_iff s).mp h
  have hne : s.chunks ≠ [] := by rw [hq]; exact List.cons_ne_nil _ _
  obtain ⟨rest', h1, _, _⟩ := drain_head_nil buffer rest count
  refine ⟨_, read_async_of_data s buffer count task hne, ?_⟩
  simp [HeadEof, hq, h1]

theorem filter_event_of_headEof (abi : Abi) (x : XServer) (xevent : XEvent)
    (s : GdkX11SelectionInputStream) (h : HeadEof s) :
    ∃ s1 ret, gdk_x11_selection_input_stream_filter_event abi x xevent s = some (s1, ret) ∧
      HeadEof s1 := by
  rcases filter_event_shape abi x xevent s with h0 | ⟨l1, l2, ret, h1 | ⟨b, _, h2⟩ | h3 | ⟨b, h4⟩⟩
  · exact ⟨s, _, h0, h⟩
  · obtain ⟨s1, hs1, hh⟩ := complete_of_headEof (log_xcalls l1 s) h
    exact ⟨log_xcalls l2 s1, ret, by rw [h1, hs1]; rfl, hh⟩
  · obtain ⟨s1, hs1, hh⟩ := flush_of_headEof (push_chunk b (log_xcalls l1 s))
      (headEof_push_chunk b _ h)
    exact ⟨log_xcalls l2 s1, ret, by rw [h2, hs1]; rfl, hh⟩
  · obtain ⟨s1, hs1, hh⟩ := flush_of_headEof (set_incr (log_xcalls l1 s)) h
    exact ⟨log_xcalls l2 s1, ret, by rw [h3, hs1]; rfl, hh⟩
  · obtain ⟨s1, hs1, hh⟩ := complete_of_headEof (push_chunk b (log_xcalls l1 s))
      (headEof_push_chunk b _ h)
    exact ⟨log_xcalls l2 s1, ret, by rw [h4, hs1]; rfl, hh⟩

theorem run_ops_of_headEof (abi : Abi) (ops : List Op) :
    ∀ s : GdkX11SelectionInputStream, HeadEof s →
      ∃ s1, run_ops abi ops s = some s1 ∧ HeadEof s1 := by
  induction ops with
  | nil => intro s h; exact ⟨s, rfl, h⟩
  | cons op rest ih =>
    intro s h
    have hstep : ∃ s1, op.apply abi s = some s1 ∧ HeadEof s1 := by
      cases op with
      | read buffer count =>
        obtain ⟨r, hr, _, _, hh⟩ := read_of_headEof s buffer count h
        exact ⟨r.stream, by simp [Op.apply, hr], hh⟩
      | read_async buffer count task => exact read_async_of_headEof s buffer count task h
      | filter_event x xevent =>
        obtain ⟨s1, ret, hs1, hh⟩ := filter_event_of_headEof abi x xevent s h
        exact ⟨s1, by simp [Op.apply, hs1], hh⟩
      | flush => exact flush_of_headEof s h
      | complete => exact complete_of_headEof s h
    obtain ⟨s1, hs1, hh⟩ := hstep
    obtain ⟨s2, hs2, hh2⟩ := ih s1 hh
    exact ⟨s2, by simp [run_ops, hs1, hs2], hh2⟩

/-- C3 (EOF stickiness): in any stream state, once a read with `count > 0` has
returned 0, any further reads, asynchronous reads, filter events, flushes and
completions run without blocking and every read after them returns 0 as
well, whatever its count. -/
theorem eof_is_sticky (abi : Abi) (s : GdkX11SelectionInputStream) (buffer : Option Nat)
    (count : Nat) (hc : 0 < count) (r : ReadResult)
    (hread : gdk_x11_selection_input_stream_read s buffer count = some r) (h0 : r.ret = 0)
    (ops : List Op) (buffer1 : Option Nat) (count1 : Nat) :
    ∃ s1 r1, run_ops abi ops r.stream = some s1 ∧
      gdk_x11_selection_input_stream_read s1 buffer1 count1 = some r1 ∧ r1.ret = 0 := by
  have h := headEof_of_read_zero s buffer count hc r hread h0
  obtain ⟨s1, hs1, hh⟩ := run_ops_of_headEof abi ops r.stream h
  obtain ⟨r1, hr1, hz, _, _⟩ := read_of_headEof s1 buffer1 count1 hh
  exact ⟨s1, r1, hs1, hr1, hz⟩

/-- C3 at a queue holding only the EOF marker: a read of 5 bytes returns 0;
after an `INCR` chunk event, a flush and another read, a read of 7 bytes
returns 0 again. -/
theorem eof_is_sticky_witness :
    ∃ s1 r1,
      run_ops lp64
          [.filter_event (server_with (property_reply 5 [104]))
              (.PropertyNotify 1 2 12 PropertyNewValue),
            .flush, .read (some 0) 3]
          { stream_with_chunks [[]] with chunks := [[], []], incr := true } = some s1 ∧
      gdk_x11_selection_input_stream_read s1 (some 0) 7 = some r1 ∧ r1.ret = 0 :=
  eof_is_sticky lp64 { stream_with_chunks [[]] with incr := true } (some 0) 5 (by decide)
    { stream := { stream_with_chunks [[]] with chunks := [[], []], incr := true },
      ret := 0, out := [] }
    rfl rfl _ (some 0) 7

/-! ## The invariant of reachable states -/

theorem Inv.weak {s : GdkX11SelectionInputStream} (h : Inv s) : WeakInv s :=
  ⟨h.eof_queued, fun hp => (h.parked hp).2, h.deregistered⟩

theorem Inv.log_xcalls {s : GdkX11SelectionInputStream} (h : Inv s) (l : List XCall) :
    Inv (log_xcalls l s) :=
  ⟨h.eof_queued, h.parked, h.deregistered⟩

theorem Inv.set_incr {s : GdkX11SelectionInputStream} (h : Inv s) : Inv (set_incr s) :=
  ⟨h.eof_queued, h.parked, h.deregistered⟩

theorem WeakInv.push_chunk {s : GdkX11SelectionInputStream} (h : WeakInv s) (b : GBytes) :
    WeakInv (push_chunk b s) :=
  ⟨fun hc => List.mem_append_left _ (h.eof_queued hc), h.parked, h.deregistered⟩

theorem flush_of_inv (s : GdkX11SelectionInputStream) (h : Inv s) :
    gdk_x11_selection_input_stream_flush s = some s := by
  cases hp : s.pending_task with
  | none => exact flush_of_no_pending s hp
  | some task =>
    obtain ⟨hq, hc⟩ := h.parked (by simp [hp])
    exact flush_of_no_data s (by simp [gdk_x11_selection_input_stream_has_data, hq, hc])

theorem flush_of_weakInv (s : GdkX11SelectionInputStream) (h : WeakInv s)
    (hq : s.chunks ≠ []) :
    ∃ s1, gdk_x11_selection_input_stream_flush s = some s1 ∧ Inv s1 ∧
      s1.pending_task = none := by
  cases hp : s.pending_task with
  | none =>
    exact ⟨s, flush_of_no_pending s hp,
      ⟨h.eof_queued, fun hne => absurd hp hne, h.deregistered⟩, hp⟩
  | some task =>
    refine ⟨_, flush_of_pending s task hp hq, ⟨?_, ?_, ?_⟩, rfl⟩
    · intro hc
      exact drain_mem_nil _ _ _ (h.eof_queued hc)
    · intro hne
      exact absurd rfl hne
    · exact h.deregistered

theorem complete_of_weakInv (s : GdkX11SelectionInputStream) (h : WeakInv s) :
    ∃ s1, gdk_x11_selection_input_stream_complete s = some s1 ∧ Inv s1 ∧
      s1.complete = true := by
  cases hc : s.complete with
  | true =>
    refine ⟨s, complete_of_complete s hc, ⟨h.eof_queued, ?_, h.deregistered⟩, hc⟩
    intro hne
    have := h.parked hne
    rw [hc] at this
    exact absurd this (by decide)
  | false =>
    cases hp : s.pending_task with
    | none =>
      rw [complete_of_not_complete s hc,
        flush_of_no_pending { s with complete := true, chunks := s.chunks ++ [[]] } hp]
      refine ⟨_, rfl, ⟨?_, ?_, ?_⟩, rfl⟩
      · intro _
        exact List.mem_append_right _ (List.mem_singleton_self _)
      · intro hne
        exact absurd hp hne
      · intro _
        exact ⟨rfl, rfl⟩
    | some task =>
      rw [complete_of_not_complete s hc,
        flush_of_pending { s with complete := true, chunks := s.chunks ++ [[]] } task hp
          (by simp)]
      refine ⟨_, rfl, ⟨?_, ?_, ?_⟩, rfl⟩
      · intro _
        exact drain_mem_nil _ _ _ (List.mem_append_right _ (List.mem_singleton_self _))
      · intro hne
        exact absurd rfl hne
      · intro _
        exact ⟨rfl, rfl⟩

theorem read_of_inv (s : GdkX11SelectionInputStream) (h : Inv s) (buffer : Option Nat)
    (count : Nat) (r : ReadResult)
    (hr : gdk_x11_selection_input_stream_read s buffer count = some r) : Inv r.stream := by
  have hne := read_some_ne_nil s buffer count r hr
  rw [read_eq_drain s buffer count hne] at hr
  simp only [Option.some.injEq] at hr
  subst hr
  refine ⟨?_, ?_, h.deregistered⟩
  · intro hc
    exact drain_mem_nil _ _ _ (h.eof_queued hc)
  · intro hp
    exact absurd (h.parked hp).1 hne

theorem has_data_false_iff (s : GdkX11SelectionInputStream) :
    gdk_x11_selection_input_stream_has_data s = false ↔ s.chunks = [] ∧ s.complete = false := by
  cases hq : s.chunks with
  | nil => simp [gdk_x11_selection_input_stream_has_data, hq]
  | cons b rest => simp [gdk_x11_selection_input_stream_has_data, hq]

theorem read_async_of_inv (s : GdkX11SelectionInputStream) (h : Inv s) (buffer : Option Nat)
    (count : Nat) (task : GTask) :
    ∃ s1, gdk_x11_selection_input_stream_read_async s buffer count task = some s1 ∧
      Inv s1 := by
  cases hd : gdk_x11_selection_input_stream_has_data s with
  | false =>
    obtain ⟨hq, hc⟩ := (has_data_false_iff s).mp hd
    refine ⟨_, read_async_of_no_data s buffer count task hd, ⟨?_, ?_, ?_⟩⟩
    · intro hc1
      rw [hc] at hc1
      exact absurd hc1 (by decide)
    · intro _
      exact ⟨hq, hc⟩
    · exact h.deregistered
  | true =>
    have hne : s.chunks ≠ [] := by
      intro hq
      have hc : s.complete = true := by
        simpa [gdk_x11_selection_input_stream_has_data, hq] using hd
      have := h.eof_queued hc
      rw [hq] at this
      exact absurd this (List.not_mem_nil _)
    refine ⟨_, read_async_of_data s buffer count task hne, ⟨?_, ?_, h.deregistered⟩⟩
    · intro hc
      exact drain_mem_nil _ _ _ (h.eof_queued hc)
    · intro hp
      exact absurd (h.parked hp).1 hne

theorem filter_event_of_inv (abi : Abi) (x : XServer) (xevent : XEvent)
    (s : GdkX11SelectionInputStream) (h : Inv s) :
    ∃ s1 ret, gdk_x11_selection_input_stream_filter_event abi x xevent s = some (s1, ret) ∧
      Inv s1 := by
  rcases filter_event_shape abi x xevent s with h0 | ⟨l1, l2, ret, h1 | ⟨b, _, h2⟩ | h3 | ⟨b, h4⟩⟩
  · exact ⟨s, _, h0, h⟩
  · obtain ⟨s1, hs1, hi, _⟩ := complete_of_weakInv (log_xcalls l1 s) (h.log_xcalls l1).weak
    exact ⟨log_xcalls l2 s1, ret, by rw [h1, hs1]; rfl, hi.log_xcalls l2⟩
  · obtain ⟨s1, hs1, hi, _⟩ := flush_of_weakInv (push_chunk b (log_xcalls l1 s))
      ((h.log_xcalls l1).weak.push_chunk b) (by simp [push_chunk])
    exact ⟨log_xcalls l2 s1, ret, by rw [h2, hs1]; rfl, hi.log_xcalls l2⟩
  · have hi : Inv (set_incr (log_xcalls l1 s)) := (h.log_xcalls l1).set_incr
    exact ⟨log_xcalls l2 (set_incr (log_xcalls l1 s)), ret,
      by rw [h3, flush_of_inv _ hi]; rfl, hi.log_xcalls l2⟩
  · obtain ⟨s1, hs1, hi, _⟩ := complete_of_weakInv (push_chunk b (log_xcalls l1 s))
      ((h.log_xcalls l1).weak.push_chunk b)
    exact ⟨log_xcalls l2 s1, ret, by rw [h4, hs1]; rfl, hi.log_xcalls l2⟩

theorem inv_new (xdisplay : Display) (leader_window : Window)
    (xselection xtarget xproperty : Atom) (timestamp : Nat) :
    Inv (gdk_x11_selection_input_stream_new xdisplay leader_window xselection xtarget
      xproperty timestamp) :=
  ⟨fun h => absurd h (by simp [gdk_x11_selection_input_stream_new]),
   fun h => absurd rfl h,
   fun h => absurd h (by simp [gdk_x11_selection_input_stream_new])⟩

theorem inv_of_reachable (abi : Abi) (s : GdkX11SelectionInputStream)
    (h : Reachable abi s) : Inv s := by
  induction h with
  | new d w sel tgt prop ts => exact inv_new d w sel tgt prop ts
  | read buffer count _ hr ih => exact read_of_inv _ ih buffer count _ hr
  | read_async buffer count task _ hr ih =>
    obtain ⟨s1, hs1, hi⟩ := read_async_of_inv _ ih buffer count task
    rw [hs1] at hr
    simp only [Option.some.injEq] at hr
    exact hr ▸ hi
  | filter_event x xevent _ _ hr ih =>
    obtain ⟨s1, ret, hs1, hi⟩ := filter_event_of_inv abi x xevent _ ih
    rw [hs1] at hr
    simp only [Option.some.injEq, Prod.mk.injEq] at hr
    exact hr.1 ▸ hi
  | flush _ hr ih =>
    rw [flush_of_inv _ ih] at hr
    simp only [Option.some.injEq] at hr
    exact hr ▸ ih
  | complete _ hr ih =>
    obtain ⟨s1, hs1, hi, _⟩ := complete_of_weakInv _ ih.weak
    rw [hs1] at hr
    simp only [Option.some.injEq] at hr
    exact hr ▸ hi

/-! ## Refusal -/

/-- C5 (refusal): on a stream just opened, a `SelectionNotify` on the stream's
display and requestor window with the stream's selection and target and with
property `None` is removed by the filter and completes the stream with nothing
but the EOF marker queued and without reading or deleting a property; the
first read with `count > 0` then returns 0 and stores nothing. -/
theorem refusal_reads_eof (abi : Abi) (x : XServer) (xdisplay : Display)
    (leader_window : Window) (xselection xtarget xproperty : Atom) (timestamp : Nat)
    (buffer : Option Nat) (count : Nat) (hc : 0 < count) :
    ∃ s1 r,
      gdk_x11_selection_input_stream_filter_event abi x
          (.SelectionNotify xdisplay leader_window xselection xtarget None)
          (gdk_x11_selection_input_stream_new xdisplay leader_window xselection xtarget
            xproperty timestamp)
        = some (s1, .GDK_FILTER_REMOVE) ∧
      s1.complete = true ∧ s1.chunks = [[]] ∧
      s1.xcalls = [.XConvertSelection xdisplay xselection xtarget xproperty leader_window
        timestamp] ∧
      gdk_x11_selection_input_stream_read s1 buffer count = some r ∧
      r.ret = 0 ∧ r.out = [] := by
  have hc0 : count ≠ 0 := by omega
  have hf := filter_event_refused abi x (gdk_x11_selection_input_stream_new xdisplay
    leader_window xselection xtarget xproperty timestamp)
  rw [complete_of_no_pending _ rfl rfl] at hf
  refine ⟨_, _, hf, rfl, rfl, rfl, read_eq_drain _ buffer count (by simp), ?_, ?_⟩
  · simp [gdk_x11_selection_input_stream_new, drain, hc0]
  · simp [gdk_x11_selection_input_stream_new, drain, hc0]

/-- C5 at the stream `fresh_stream` and a read of 100 bytes. -/
theorem refusal_reads_eof_witness :
    ∃ s1 r,
      gdk_x11_selection_input_stream_filter_event lp64 (server_with (property_reply 5 []))
          (.SelectionNotify 1 2 10 11 None) fresh_stream = some (s1, .GDK_FILTER_REMOVE) ∧
      s1.complete = true ∧ s1.chunks = [[]] ∧
      s1.xcalls = [.XConvertSelection 1 10 11 12 2 0] ∧
      gdk_x11_selection_input_stream_read s1 (some 0) 100 = some r ∧
      r.ret = 0 ∧ r.out = [] :=
  refusal_reads_eof lp64 (server_with (property_reply 5 [])) 1 2 10 11 12 0 (some 0) 100
    (by decide)

/-! ## Asynchronous reads -/

/-- C7 (`read_async`): in a reachable state with data (queue non-empty or
`complete` set) `fill_buffer` returns, the task is resolved within the call
with the value and bytes of that `fill_buffer`, the queue is what
`fill_buffer` left, and no read is parked before or after; in a reachable
state without data nothing is resolved, the queue is unchanged and buffer,
count and task become the parked read. -/
theorem read_async_resolves_or_parks (abi : Abi) (s : GdkX11SelectionInputStream)
    (hs : Reachable abi s) (buffer : Option Nat) (count : Nat) (task : GTask) :
    (gdk_x11_selection_input_stream_has_data s = true →
      ∃ r s1, gdk_x11_selection_input_stream_fill_buffer s.chunks buffer count = some r ∧
        gdk_x11_selection_input_stream_read_async s buffer count task = some s1 ∧
        s1.task_returns = s.task_returns ++ [{ task := task, value := r.result, data := r.out }] ∧
        s1.chunks = r.chunks ∧
        s.pending_task = none ∧ s1.pending_task = none ∧
        s1.pending_data = s.pending_data ∧ s1.pending_size = s.pending_size) ∧
    (gdk_x11_selection_input_stream_has_data s = false →
      ∃ s1, gdk_x11_selection_input_stream_read_async s buffer count task = some s1 ∧
        s1.task_returns = s.task_returns ∧ s1.chunks = s.chunks ∧
        s1.pending_task = some task ∧ s1.pending_data = buffer ∧ s1.pending_size = count) := by
  have hi := inv_of_reachable abi s hs
  constructor
  · intro hd
    have hne : s.chunks ≠ [] := by
      intro hq
      have hc : s.complete = true := by
        simpa [gdk_x11_selection_input_stream_has_data, hq] using hd
      have := hi.eof_queued hc
      rw [hq] at this
      exact absurd this (List.not_mem_nil _)
    have hp : s.pending_task = none := by
      by_contra hp
      exact hne (hi.parked hp).1
    exact ⟨_, _, fill_buffer_eq_drain buffer s.chunks count hne,
      read_async_of_data s buffer count task hne, rfl, rfl, hp, hp, rfl, rfl⟩
  · intro hd
    exact ⟨_, read_async_of_no_data s buffer count task hd, rfl, rfl, rfl, rfl, rfl⟩

/-- C7 at the stream just opened: the first `read_async` parks. -/
theorem read_async_resolves_or_parks_witness :
    ∃ s1, gdk_x11_selection_input_stream_read_async fresh_stream (some 0) 16 7 = some s1 ∧
      s1.task_returns = fresh_stream.task_returns ∧ s1.chunks = fresh_stream.chunks ∧
      s1.pending_task = some 7 ∧ s1.pending_data = some 0 ∧ s1.pending_size = 16 :=
  (read_async_resolves_or_parks lp64 fresh_stream (Reachable.new 1 2 10 11 12 0)
    (some 0) 16 7).2 rfl

/-! ## Teardown -/

theorem drain_eof_only (buffer : Option Nat) (count : Nat) :
    drain buffer [[]] count
      = { chunks := if count = 0 then [[]] else [[], []], out := [], result := 0 } := by
  by_cases hc : count = 0 <;> simp [drain, hc]

/-- C9 (teardown resolves the parked read with 0): finalizing is completing;
in a reachable state that is not complete, completion returns, sets
`complete`, deregisters the stream and leaves no read parked.  If a read was
parked the queue was empty, its task is resolved once, with 0 and no bytes
stored, and the queue then holds only zero-length chunks (the EOF marker, put
back twice by the drain when the parked count is positive); otherwise no task
is resolved and the EOF marker is appended to the queue. -/
theorem teardown_resolves_parked (abi : Abi) (s : GdkX11SelectionInputStream)
    (hs : Reachable abi s) (hc : s.complete = false) :
    gdk_x11_selection_input_stream_finalize s = gdk_x11_selection_input_stream_complete s ∧
    ∃ s1, gdk_x11_selection_input_stream_complete s = some s1 ∧
      s1.complete = true ∧ s1.filter_installed = false ∧ s1.in_input_streams = false ∧
      s1.pending_task = none ∧
      (∀ task, s.pending_task = some task →
        s.chunks = [] ∧
        s1.task_returns = s.task_returns ++ [{ task := task, value := 0, data := [] }] ∧
        s1.chunks = (if s.pending_size = 0 then [[]] else [[], []]) ∧
        s1.pending_data = none ∧ s1.pending_size = 0) ∧
      (s.pending_task = none →
        s1.task_returns = s.task_returns ∧ s1.chunks = s.chunks ++ [[]]) := by
  have hi := inv_of_reachable abi s hs
  refine ⟨rfl, ?_⟩
  cases hp : s.pending_task with
  | none =>
    refine ⟨_, complete_of_no_pending s hc hp, rfl, rfl, rfl, hp, ?_, ?_⟩
    · intro task ht
      exact absurd ht (by simp)
    · intro _
      exact ⟨rfl, rfl⟩
  | some task =>
    have hq : s.chunks = [] := (hi.parked (by simp [hp])).1
    rw [complete_of_not_complete s hc,
      flush_of_pending { s with complete := true, chunks := s.chunks ++ [[]] } task hp
        (by simp)]
    refine ⟨_, rfl, rfl, rfl, rfl, rfl, ?_, ?_⟩
    · intro task1 ht
      simp only [Option.some.injEq] at ht
      subst ht
      simp [hq, drain_eof_only]
    · intro h
      exact absurd h (by simp)

/-- C9 at a stream just opened on which a read of 16 bytes for task 7 is
parked: completion resolves task 7 with 0. -/
theorem teardown_resolves_parked_witness :
    gdk_x11_selection_input_stream_finalize
        { fresh_stream with pending_task := some 7, pending_data := some 0, pending_size := 16 }
      = gdk_x11_selection_input_stream_complete
        { fresh_stream with pending_task := some 7, pending_data := some 0, pending_size := 16 } ∧
    ∃ s1, gdk_x11_selection_input_stream_complete
        { fresh_stream with pending_task := some 7, pending_data := some 0, pending_size := 16 }
        = some s1 ∧
      s1.complete = true ∧ s1.filter_installed = false ∧ s1.in_input_streams = false ∧
      s1.pending_task = none ∧
      (∀ task, some 7 = some task →
        fresh_stream.chunks = [] ∧
        s1.task_returns = fresh_stream.task_returns ++ [{ task := task, value := 0, data := [] }] ∧
        s1.chunks = (if 16 = 0 then [[]] else [[], []]) ∧
        s1.pending_data = none ∧ s1.pending_size = 0) ∧
      (some 7 = (none : Option GTask) →
        s1.task_returns = fresh_stream.task_returns ∧ s1.chunks = fresh_stream.chunks ++ [[]]) :=
  teardown_resolves_parked lp64
    { fresh_stream with pending_task := some 7, pending_data := some 0, pending_size := 16 }
    (Reachable.read_async (some 0) 16 7 (Reachable.new 1 2 10 11 12 0) rfl) rfl

/-! ## Reading a finished transfer -/

theorem get_selection_property_some (abi : Abi) (x : XServer) (display : Display)
    (owner : Window) (property : Atom) (b : GBytes) (type : Atom) (format : Int)
    (h : get_selection_property abi x display owner property = (some b, type, format)) :
    type ≠ None := by
  unfold get_selection_property at h
  simp only at h
  split at h
  · simp at h
  · split at h
    · rename_i ht
      split at h
      · simp only [Prod.mk.injEq] at h
        rw [← h.2.1]; exact ht
      · split at h
        · simp only [Prod.mk.injEq] at h
          rw [← h.2.1]; exact ht
        · split at h
          · simp only [Prod.mk.injEq] at h
            rw [← h.2.1]; exact ht
          · simp at h
    · simp at h

theorem get_selection_property_failed (abi : Abi) (x : XServer) (display : Display)
    (owner : Window) (property : Atom)
    (h : (x.XGetWindowProperty display owner property).status ≠ Success ∨
      (x.XGetWindowProperty display owner property).prop_type = None ∨
      ((x.XGetWindowProperty display owner property).prop_format ≠ 8 ∧
        (x.XGetWindowProperty display owner property).prop_format ≠ 16 ∧
        (x.XGetWindowProperty display owner property).prop_format ≠ 32)) :
    get_selection_property abi x display owner property = (none, None, 0) := by
  unfold get_selection_property
  simp only
  rcases h with h | h | ⟨h8, h16, h32⟩
  · simp [h]
  · simp [h]
  · simp [h8, h16, h32]

theorem data_before_eof_of_nonempty (Ws : List GBytes) (h : ∀ W ∈ Ws, W ≠ [])
    (rest : List GBytes) :
    data_before_eof (Ws ++ [] :: rest) = Ws.flatten := by
  induction Ws with
  | nil => simp [data_before_eof_cons]
  | cons W Ws ih =>
    have hW : W.length ≠ 0 := fun h0 =>
      h W (List.mem_cons_self _ _) (List.length_eq_zero.mp h0)
    rw [List.cons_append, data_before_eof_cons]
    simp only [hW, if_false, List.flatten_cons]
    rw [ih (fun V hV => h V (List.mem_cons_of_mem _ hV))]

theorem read_until_eof_eq (cnt : Nat → Nat) (hcnt : ∀ i, 0 < cnt i) (buffer : Nat) :
    ∀ (fuel i : Nat) (s : GdkX11SelectionInputStream), [] ∈ s.chunks →
      queued_before_eof s.chunks < fuel →
      read_until_eof cnt buffer fuel i s = some (data_before_eof s.chunks) := by
  intro fuel
  induction fuel with
  | zero => intro i s _ h; omega
  | succ fuel ih =>
    intro i s hmem hlt
    have hne : s.chunks ≠ [] := fun h => by rw [h] at hmem; exact absurd hmem (List.not_mem_nil _)
    have hres := drain_result (some buffer) s.chunks (cnt i)
    have hout := drain_out_data buffer s.chunks (cnt i)
    have hdata := drain_data_before_eof (some buffer) s.chunks (cnt i)
    have hpos := hcnt i
    rw [queued_before_eof_eq] at hres hlt
    simp only [read_until_eof, read_eq_drain s (some buffer) (cnt i) hne]
    by_cases h0 : (drain (some buffer) s.chunks (cnt i)).result = 0
    · have hlen : (data_before_eof s.chunks).length = 0 := by omega
      simp [h0, List.length_eq_zero.mp hlen]
    · have hrec := ih (i + 1)
        { s with chunks := (drain (some buffer) s.chunks (cnt i)).chunks }
        (drain_mem_nil _ _ _ hmem)
        (by
          rw [queued_before_eof_eq]
          simp only [hdata, List.length_drop]
          omega)
      simp only [Int.natCast_eq_zero, h0, if_false, hrec, Option.map_some', hdata, hout,
        List.take_append_drop]

/-! ## The steps of a transfer on a stream with no parked read -/

theorem selection_single_step (abi : Abi) (x : XServer) (s : GdkX11SelectionInputStream)
    (d : Display) (w : Window) (sel tgt p : Atom) (W : GBytes) (type : Atom) (format : Int)
    (hd : s.xdisplay = d) (hw : s.leader_window = w) (hsel : s.xselection = sel)
    (htgt : s.xtarget = tgt) (hp : p ≠ None)
    (hget : get_selection_property abi x d w p = (some W, type, format))
    (hty : type ≠ abi.INCR) (hc : s.complete = false) (hpend : s.pending_task = none) :
    gdk_x11_selection_input_stream_filter_event abi x (.SelectionNotify d w sel tgt p) s
      = some ({ s with
          xcalls := s.xcalls ++ [.XGetWindowProperty d w p, .XDeleteProperty d w p]
          chunks := s.chunks ++ [W, []]
          complete := true
          in_input_streams := false
          filter_installed := false }, .GDK_FILTER_REMOVE) := by
  subst hd hw hsel htgt
  rw [filter_event_selection_single abi x s p hp W type format hget hty,
    complete_of_no_pending
      { s with
        xcalls := s.xcalls ++ [.XGetWindowProperty s.xdisplay s.leader_window p]
        chunks := s.chunks ++ [W] } hc hpend]
  simp

theorem selection_incr_step (abi : Abi) (x : XServer) (s : GdkX11SelectionInputStream)
    (d : Display) (w : Window) (sel tgt p : Atom) (hint : GBytes) (format : Int)
    (hd : s.xdisplay = d) (hw : s.leader_window = w) (hsel : s.xselection = sel)
    (htgt : s.xtarget = tgt) (hp : p ≠ None)
    (hget : get_selection_property abi x d w p = (some hint, abi.INCR, format))
    (hpend : s.pending_task = none) :
    gdk_x11_selection_input_stream_filter_event abi x (.SelectionNotify d w sel tgt p) s
      = some ({ s with
          xcalls := s.xcalls ++ [.XGetWindowProperty d w p, .XDeleteProperty d w p]
          incr := true }, .GDK_FILTER_REMOVE) := by
  subst hd hw hsel htgt
  rw [filter_event_selection_incr abi x s p hp hint format hget,
    flush_of_no_pending
      { s with
        xcalls := s.xcalls ++ [.XGetWindowProperty s.xdisplay s.leader_window p]
        incr := true } hpend]
  simp

theorem property_chunk_step (abi : Abi) (x : XServer) (s : GdkX11SelectionInputStream)
    (d : Display) (w : Window) (prop : Atom) (W : GBytes) (type : Atom) (format : Int)
    (hd : s.xdisplay = d) (hw : s.leader_window = w) (hprop : s.xproperty = prop)
    (hincr : s.incr = true)
    (hget : get_selection_property abi x d w prop = (some W, type, format))
    (hW : W ≠ []) (hpend : s.pending_task = none) :
    gdk_x11_selection_input_stream_filter_event abi x
        (.PropertyNotify d w prop PropertyNewValue) s
      = some ({ s with
          xcalls := s.xcalls ++ [.XGetWindowProperty d w prop, .XDeleteProperty d w prop]
          chunks := s.chunks ++ [W] }, .GDK_FILTER_CONTINUE) := by
  subst hd hw hprop
  have hty := get_selection_property_some abi x _ _ _ W type format hget
  rw [filter_event_property_chunk abi x s hincr W type format hget hW hty,
    flush_of_no_pending
      { s with
        xcalls := s.xcalls ++ [.XGetWindowProperty s.xdisplay s.leader_window s.xproperty]
        chunks := s.chunks ++ [W] } hpend]
  simp

theorem property_end_step (abi : Abi) (x : XServer) (s : GdkX11SelectionInputStream)
    (d : Display) (w : Window) (prop : Atom)
    (hd : s.xdisplay = d) (hw : s.leader_window = w) (hprop : s.xproperty = prop)
    (hincr : s.incr = true)
    (hget : ∀ b, (get_selection_property abi x d w prop).1 = some b →
      b.length = 0 ∨ (get_selection_property abi x d w prop).2.1 = None)
    (hc : s.complete = false) (hpend : s.pending_task = none) :
    gdk_x11_selection_input_stream_filter_event abi x
        (.PropertyNotify d w prop PropertyNewValue) s
      = some ({ s with
          xcalls := s.xcalls ++ [.XGetWindowProperty d w prop, .XDeleteProperty d w prop]
          chunks := s.chunks ++ [[]]
          complete := true
          in_input_streams := false
          filter_installed := false }, .GDK_FILTER_CONTINUE) := by
  subst hd hw hprop
  rw [filter_event_property_end abi x s hincr hget,
    complete_of_no_pending
      { s with
        xcalls := s.xcalls ++ [.XGetWindowProperty s.xdisplay s.leader_window s.xproperty] }
      hc hpend]
  simp

theorem filter_events_cons (abi : Abi) (x : XServer) (xevent : XEvent)
    (s s1 : GdkX11SelectionInputStream) (ret : GdkFilterReturn)
    (rest : List (XServer × XEvent))
    (h : gdk_x11_selection_input_stream_filter_event abi x xevent s = some (s1, ret)) :
    filter_events abi ((x, xevent) :: rest) s = filter_events abi rest s1 := by
  simp [filter_events, h]

/-- A run of `PropertyNotify` events that each carry a non-empty chunk appends
the chunks to the queue in order and changes nothing else but the Xlib log. -/
theorem property_chunks_run (abi : Abi) (d : Display) (w : Window) (prop : Atom) :
    ∀ (xs : List XServer) (Ws : List GBytes) (s : GdkX11SelectionInputStream),
      List.Forall₂ (carries_chunk abi d w prop) xs Ws →
      s.xdisplay = d → s.leader_window = w → s.xproperty = prop → s.incr = true →
      s.pending_task = none →
      ∀ rest : List (XServer × XEvent),
        filter_events abi
            (xs.map (fun x => (x, XEvent.PropertyNotify d w prop PropertyNewValue)) ++ rest) s
          = filter_events abi rest
              { s with
                xcalls := s.xcalls ++ (xs.map (fun _ =>
                  [XCall.XGetWindowProperty d w prop, XCall.XDeleteProperty d w prop])).flatten
                chunks := s.chunks ++ Ws } := by
  intro xs Ws s h
  induction h generalizing s with
  | nil =>
    intro _ _ _ _ _ rest
    simp
  | @cons x W xs Ws hxW _ ih =>
    intro hd hw hprop hincr hpend rest
    obtain ⟨hW, t, f, hget⟩ := hxW
    rw [List.map_cons, List.cons_append,
      filter_events_cons abi x _ _ _ _ _
        (property_chunk_step abi x s d w prop W t f hd hw hprop hincr hget hW hpend),
      ih { s with
          xcalls := s.xcalls ++ [.XGetWindowProperty d w prop, .XDeleteProperty d w prop]
          chunks := s.chunks ++ [W] } hd hw hprop hincr hpend rest]
    simp

theorem carries_chunk_ne_nil (abi : Abi) (d : Display) (w : Window) (prop : Atom)
    (xs : List XServer) (Ws : List GBytes)
    (h : List.Forall₂ (carries_chunk abi d w prop) xs Ws) : ∀ W ∈ Ws, W ≠ [] := by
  induction h with
  | nil => intro W hW; exact absurd hW (List.not_mem_nil _)
  | cons hxW _ ih =>
    intro V hV
    rcases List.mem_cons.mp hV with hV | hV
    · rw [hV]; exact hxW.1
    · exact ih V hV

/-- An `INCR` transfer on a stream just opened whose last event ends the
stream: the queue is the chunks in order followed by the EOF marker. -/
theorem incr_transfer_run (abi : Abi) (d : Display) (w : Window) (sel tgt prop : Atom)
    (ts : Nat) (x0 : XServer) (p : Atom) (hint : GBytes) (format : Int)
    (xs : List XServer) (Ws : List GBytes) (xe : XServer) (hp : p ≠ None)
    (h0 : get_selection_property abi x0 d w p = (some hint, abi.INCR, format))
    (hxs : List.Forall₂ (carries_chunk abi d w prop) xs Ws)
    (hend : ∀ b, (get_selection_property abi xe d w prop).1 = some b →
      b.length = 0 ∨ (get_selection_property abi xe d w prop).2.1 = None) :
    ∃ s1, filter_events abi (incr_transfer_events d w sel tgt p prop x0 xs xe)
        (gdk_x11_selection_input_stream_new d w sel tgt prop ts) = some s1 ∧
      s1.chunks = Ws ++ [[]] ∧ s1.complete = true ∧ s1.pending_task = none ∧
      s1.task_returns = [] := by
  unfold incr_transfer_events
  rw [filter_events_cons abi x0 _ _ _ _ _
      (selection_incr_step abi x0 (gdk_x11_selection_input_stream_new d w sel tgt prop ts)
        d w sel tgt p hint format rfl rfl rfl rfl hp h0 rfl),
    property_chunks_run abi d w prop xs Ws _ hxs rfl rfl rfl rfl rfl,
    filter_events_cons abi xe _ _ _ _ _
      (property_end_step abi xe _ d w prop rfl rfl rfl rfl hend rfl rfl)]
  exact ⟨_, rfl, by simp [gdk_x11_selection_input_stream_new], rfl, rfl, rfl⟩

theorem read_until_eof_of_chunks (cnt : Nat → Nat) (hcnt : ∀ i, 0 < cnt i) (buffer : Nat)
    (s : GdkX11SelectionInputStream) (Ws : List GBytes) (hWs : ∀ W ∈ Ws, W ≠ [])
    (hq : s.chunks = Ws ++ [[]]) (fuel : Nat) (hfuel : Ws.flatten.length < fuel) :
    read_until_eof cnt buffer fuel 0 s = some Ws.flatten := by
  have hd : data_before_eof s.chunks = Ws.flatten := by
    rw [hq]; exact data_before_eof_of_nonempty Ws hWs []
  rw [read_until_eof_eq cnt hcnt buffer fuel 0 s (by simp [hq])
    (by rw [queued_before_eof_eq, hd]; exact hfuel), hd]

theorem data_before_eof_single (W : GBytes) (rest : List GBytes) :
    data_before_eof (W :: [] :: rest) = W := by
  rw [data_before_eof_cons, data_before_eof_cons]
  by_cases h : W.length = 0
  · simp [h, List.length_eq_zero.mp h]
  · simp [h]

/-! ## Byte conservation -/

/-- C1 (byte conservation): on a stream just opened, (a) after one matching
`SelectionNotify` whose property reads as the bytes `W` with a type other than
`INCR`, and (b) after an `INCR` announcement followed by `PropertyNotify
(NewValue)` events on the stream's property that carry the non-empty chunks
`Ws` and a last one that carries a zero-length chunk, the filter has run
without blocking and successive reads with any positive counts, up to the
first read that returns 0, store exactly `W` (resp. the concatenation of `Ws`),
in order. -/
theorem byte_conservation (abi : Abi) (d : Display) (w : Window) (sel tgt prop : Atom)
    (ts : Nat) (cnt : Nat → Nat) (hcnt : ∀ i, 0 < cnt i) (buffer : Nat) :
    (∀ (x : XServer) (p : Atom) (W : GBytes) (type : Atom) (format : Int),
      p ≠ None → get_selection_property abi x d w p = (some W, type, format) →
      type ≠ abi.INCR →
      ∃ s1, filter_events abi [(x, .SelectionNotify d w sel tgt p)]
          (gdk_x11_selection_input_stream_new d w sel tgt prop ts) = some s1 ∧
        ∀ fuel, W.length < fuel → read_until_eof cnt buffer fuel 0 s1 = some W) ∧
    (∀ (x0 : XServer) (p : Atom) (hint : GBytes) (format : Int) (xs : List XServer)
        (Ws : List GBytes) (xe : XServer) (te : Atom) (fe : Int),
      p ≠ None → get_selection_property abi x0 d w p = (some hint, abi.INCR, format) →
      List.Forall₂ (carries_chunk abi d w prop) xs Ws →
      get_selection_property abi xe d w prop = (some [], te, fe) →
      ∃ s1, filter_events abi (incr_transfer_events d w sel tgt p prop x0 xs xe)
          (gdk_x11_selection_input_stream_new d w sel tgt prop ts) = some s1 ∧
        ∀ fuel, Ws.flatten.length < fuel →
          read_until_eof cnt buffer fuel 0 s1 = some Ws.flatten) := by
  constructor
  · intro x p W type format hp hget hty
    rw [filter_events_cons abi x _ _ _ _ _
      (selection_single_step abi x (gdk_x11_selection_input_stream_new d w sel tgt prop ts)
        d w sel tgt p W type format rfl rfl rfl rfl hp hget hty rfl rfl)]
    refine ⟨_, rfl, ?_⟩
    intro fuel hfuel
    have hd : data_before_eof ([] ++ [W, []]) = W := data_before_eof_single W []
    rw [read_until_eof_eq cnt hcnt buffer fuel 0 _
      (by simp [gdk_x11_selection_input_stream_new])
      (by
        rw [queued_before_eof_eq]
        simp only [gdk_x11_selection_input_stream_new, hd]
        exact hfuel)]
    simp only [gdk_x11_selection_input_stream_new, hd]
  · intro x0 p hint format xs Ws xe te fe hp h0 hxs he
    obtain ⟨s1, hrun, hq, _, _, _⟩ := incr_transfer_run abi d w sel tgt prop ts x0 p hint
      format xs Ws xe hp h0 hxs (by
        intro b hb
        rw [he] at hb
        simp only [Option.some.injEq] at hb
        left; rw [← hb]; rfl)
    exact ⟨s1, hrun, fun fuel hfuel =>
      read_until_eof_of_chunks cnt hcnt buffer s1 Ws
        (carries_chunk_ne_nil abi d w prop xs Ws hxs) hq fuel hfuel⟩

/-- C1 at "hello" sent in one piece and at "hello ", "world", "" sent by
`INCR`, read two bytes at a time. -/
theorem byte_conservation_witness :
    (∃ s1, filter_events lp64
        [(server_with (property_reply 5 hello), .SelectionNotify 1 2 10 11 12)]
        fresh_stream = some s1 ∧
      read_until_eof (fun _ => 2) 0 6 0 s1 = some hello) ∧
    (∃ s1, filter_events lp64
        (incr_transfer_events 1 2 10 11 12 12 (server_with (property_reply 400 [11, 0, 0, 0]))
          hello_world_servers (server_with (property_reply 5 [])))
        fresh_stream = some s1 ∧
      read_until_eof (fun _ => 2) 0 12 0 s1 = some hello_world.flatten) :=
  have h := byte_conservation lp64 1 2 10 11 12 0 (fun _ => 2) (fun _ => Nat.zero_lt_two) 0
  ⟨(h.1 (server_with (property_reply 5 hello)) 12 hello 5 8 (by decide) rfl (by decide)).imp
      (fun _ hs => ⟨hs.1, hs.2 6 (by decide)⟩),
   (h.2 (server_with (property_reply 400 [11, 0, 0, 0])) 12 [11, 0, 0, 0] 8
      hello_world_servers hello_world (server_with (property_reply 5 [])) 5 8 (by decide) rfl
      (List.Forall₂.cons ⟨by decide, 5, 8, rfl⟩
        (List.Forall₂.cons ⟨by decide, 5, 8, rfl⟩ List.Forall₂.nil))
      rfl).imp
      (fun _ hs => ⟨hs.1, hs.2 12 (by decide)⟩)⟩

/-! ## Failure in the middle of a transfer -/

/-- C6 (failure mid-transfer is EOF after the buffered bytes): on a stream just
opened, after an `INCR` announcement, `PropertyNotify` events carrying the
non-empty chunks `Ws`, and a handled `PropertyNotify` whose property read
fails (`XGetWindowProperty` fails, the type is `None`, or the format is none
of 8, 16, 32), the filter has run without blocking and the stream is
complete; successive reads with positive counts store exactly the
concatenation of `Ws` up to the first read that returns 0; every read on the
stream returns with a result that is not negative, and no read in any state
returns a negative result. -/
theorem failure_reads_buffered (abi : Abi) (d : Display) (w : Window) (sel tgt prop : Atom)
    (ts : Nat) (cnt : Nat → Nat) (hcnt : ∀ i, 0 < cnt i) (buffer : Nat)
    (x0 : XServer) (p : Atom) (hint : GBytes) (format : Int) (xs : List XServer)
    (Ws : List GBytes) (xf : XServer) (hp : p ≠ None)
    (h0 : get_selection_property abi x0 d w p = (some hint, abi.INCR, format))
    (hxs : List.Forall₂ (carries_chunk abi d w prop) xs Ws)
    (hfail : (xf.XGetWindowProperty d w prop).status ≠ Success ∨
      (xf.XGetWindowProperty d w prop).prop_type = None ∨
      ((xf.XGetWindowProperty d w prop).prop_format ≠ 8 ∧
        (xf.XGetWindowProperty d w prop).prop_format ≠ 16 ∧
        (xf.XGetWindowProperty d w prop).prop_format ≠ 32)) :
    ∃ s1, filter_events abi (incr_transfer_events d w sel tgt p prop x0 xs xf)
        (gdk_x11_selection_input_stream_new d w sel tgt prop ts) = some s1 ∧
      s1.complete = true ∧
      (∀ fuel, Ws.flatten.length < fuel →
        read_until_eof cnt buffer fuel 0 s1 = some Ws.flatten) ∧
      (∀ (b : Option Nat) (count : Nat),
        ∃ r, gdk_x11_selection_input_stream_read s1 b count = some r ∧ 0 ≤ r.ret) ∧
      (∀ (s : GdkX11SelectionInputStream) (b : Option Nat) (count : Nat) (r : ReadResult),
        gdk_x11_selection_input_stream_read s b count = some r → 0 ≤ r.ret) := by
  have hg := get_selection_property_failed abi xf d w prop hfail
  obtain ⟨s1, hrun, hq, hc, _, _⟩ := incr_transfer_run abi d w sel tgt prop ts x0 p hint
    format xs Ws xf hp h0 hxs (by
      intro b hb
      rw [hg] at hb
      simp at hb)
  have hne : s1.chunks ≠ [] := by simp [hq]
  refine ⟨s1, hrun, hc, ?_, ?_, ?_⟩
  · intro fuel hfuel
    exact read_until_eof_of_chunks cnt hcnt buffer s1 Ws
      (carries_chunk_ne_nil abi d w prop xs Ws hxs) hq fuel hfuel
  · intro b count
    exact ⟨_, read_eq_drain s1 b count hne, Int.ofNat_nonneg _⟩
  · intro s b count r hr
    have hne1 := read_some_ne_nil s b count r hr
    rw [read_eq_drain s b count hne1] at hr
    simp only [Option.some.injEq] at hr
    rw [← hr]
    exact Int.ofNat_nonneg _

/-- C6 at an `INCR` transfer of "hello ", "world" cut short by a property of
format 7, read two bytes at a time. -/
theorem failure_reads_buffered_witness :
    ∃ s1, filter_events lp64
        (incr_transfer_events 1 2 10 11 12 12 (server_with (property_reply 400 [11, 0, 0, 0]))
          hello_world_servers (server_with (format_reply 5 7 3)))
        fresh_stream = some s1 ∧
      s1.complete = true ∧
      read_until_eof (fun _ => 2) 0 12 0 s1 = some hello_world.flatten :=
  (failure_reads_buffered lp64 1 2 10 11 12 0 (fun _ => 2) (fun _ => Nat.zero_lt_two) 0
      (server_with (property_reply 400 [11, 0, 0, 0])) 12 [11, 0, 0, 0] 8
      hello_world_servers hello_world (server_with (format_reply 5 7 3)) (by decide) rfl
      (List.Forall₂.cons ⟨by decide, 5, 8, rfl⟩
        (List.Forall₂.cons ⟨by decide, 5, 8, rfl⟩ List.Forall₂.nil))
      (Or.inr (Or.inr ⟨by decide, by decide, by decide⟩))).imp
    (fun _ hs => ⟨hs.1, hs.2.1, hs.2.2.1 12 (by decide)⟩)

/-! ## A parked read served by a single transfer -/

theorem selection_single_parked_step (abi : Abi) (x : XServer)
    (s : GdkX11SelectionInputStream) (d : Display) (w : Window) (sel tgt p : Atom)
    (W : GBytes) (type : Atom) (format : Int) (task : GTask)
    (hd : s.xdisplay = d) (hw : s.leader_window = w) (hsel : s.xselection = sel)
    (htgt : s.xtarget = tgt) (hp : p ≠ None)
    (hget : get_selection_property abi x d w p = (some W, type, format))
    (hty : type ≠ abi.INCR) (hc : s.complete = false) (hpend : s.pending_task = some task)
    (hq : s.chunks = []) :
    gdk_x11_selection_input_stream_filter_event abi x (.SelectionNotify d w sel tgt p) s
      = some ({ s with
          xcalls := s.xcalls ++ [.XGetWindowProperty d w p, .XDeleteProperty d w p]
          chunks := (drain s.pending_data [W, []] s.pending_size).chunks
          task_returns := s.task_returns ++
            [{ task := task, value := (drain s.pending_data [W, []] s.pending_size).result,
               data := (drain s.pending_data [W, []] s.pending_size).out }]
          pending_task := none
          pending_data := none
          pending_size := 0
          complete := true
          in_input_streams := false
          filter_installed := false }, .GDK_FILTER_REMOVE) := by
  subst hd hw hsel htgt
  rw [filter_event_selection_single abi x s p hp W type format hget hty,
    complete_of_not_complete
      { s with
        xcalls := s.xcalls ++ [.XGetWindowProperty s.xdisplay s.leader_window p]
        chunks := s.chunks ++ [W] } hc,
    flush_of_pending
      { s with
        xcalls := s.xcalls ++ [.XGetWindowProperty s.xdisplay s.leader_window p]
        chunks := s.chunks ++ [W] ++ [[]]
        complete := true } task hpend (by simp)]
  simp [hq]

theorem read_async_until_eof_eq (cnt : Nat → Nat) (hcnt : ∀ i, 0 < cnt i) (buffer : Nat) :
    ∀ (fuel i : Nat) (s : GdkX11SelectionInputStream), [] ∈ s.chunks →
      s.pending_task = none → queued_before_eof s.chunks < fuel →
      read_async_until_eof cnt buffer fuel i s = some (data_before_eof s.chunks) := by
  intro fuel
  induction fuel with
  | zero => intro i s _ _ h; omega
  | succ fuel ih =>
    intro i s hmem hpend hlt
    have hne : s.chunks ≠ [] := fun h => by rw [h] at hmem; exact absurd hmem (List.not_mem_nil _)
    have hres := drain_result (some buffer) s.chunks (cnt i)
    have hout := drain_out_data buffer s.chunks (cnt i)
    have hdata := drain_data_before_eof (some buffer) s.chunks (cnt i)
    have hpos := hcnt i
    rw [queued_before_eof_eq] at hres hlt
    simp only [read_async_until_eof, read_async_of_data s (some buffer) (cnt i) i hne,
      List.getLast?_concat, hpend, true_and, and_self, if_true]
    by_cases h0 : (drain (some buffer) s.chunks (cnt i)).result = 0
    · have hlen : (data_before_eof s.chunks).length = 0 := by omega
      simp [h0, List.length_eq_zero.mp hlen]
    · have hrec := ih (i + 1)
        { s with
          chunks := (drain (some buffer) s.chunks (cnt i)).chunks
          task_returns := s.task_returns ++
            [{ task := i, value := (drain (some buffer) s.chunks (cnt i)).result,
               data := (drain (some buffer) s.chunks (cnt i)).out }] }
        (drain_mem_nil _ _ _ hmem) hpend
        (by
          rw [queued_before_eof_eq]
          simp only [hdata, List.length_drop]
          omega)
      simp only [hpend, hout, hdata] at hrec
      simp only [Int.natCast_eq_zero, h0, if_false, hout, hrec, Option.map_some',
        List.take_append_drop]

/-- Once the EOF marker is queued and no read is parked, every `read_async`
resolves its task within the call. -/
theorem read_async_run (abi : Abi) (calls : List (Option Nat × Nat × GTask)) :
    ∀ s : GdkX11SelectionInputStream, [] ∈ s.chunks → s.pending_task = none →
      ∃ s3, run_ops abi (calls.map (fun c => Op.read_async c.1 c.2.1 c.2.2)) s = some s3 ∧
        s3.pending_task = none ∧
        s3.task_returns.map (fun tr => tr.task)
          = s.task_returns.map (fun tr => tr.task) ++ calls.map (fun c => c.2.2) := by
  induction calls with
  | nil => intro s _ hpend; exact ⟨s, rfl, hpend, by simp⟩
  | cons c rest ih =>
    intro s hmem hpend
    have hne : s.chunks ≠ [] := fun h => by rw [h] at hmem; exact absurd hmem (List.not_mem_nil _)
    obtain ⟨s3, hrun, hp3, ht3⟩ := ih
      { s with
        chunks := (drain c.1 s.chunks c.2.1).chunks
        task_returns := s.task_returns ++
          [{ task := c.2.2, value := (drain c.1 s.chunks c.2.1).result,
             data := (drain c.1 s.chunks c.2.1).out }] }
      (drain_mem_nil _ _ _ hmem) hpend
    refine ⟨s3, ?_, hp3, ?_⟩
    · simp only [List.map_cons, run_ops, Op.apply,
        read_async_of_data s c.1 c.2.1 c.2.2 hne]
      exact hrun
    · rw [ht3]; simp

/-- C8 (parked read resolution): on a stream just opened, `read_async (buf,
count)` for `task` parks without resolving anything; a matching
`SelectionNotify` whose property reads as the bytes `W` with a type other than
`INCR` is then removed by the filter and resolves `task` exactly once, with
`min count |W|` and that many leading bytes of `W`, and empties the parked
slot.  The next `read_async` resolves within the call with the next
`min count1 (|W| - min count |W|)` bytes; any run of later `read_async` calls
resolves each task within its call and parks none; and later `read_async`
calls with positive counts, up to the first that resolves with 0, store the
rest of `W`, so that all of `W` and nothing else is delivered. -/
theorem parked_read_resolution (abi : Abi) (d : Display) (w : Window) (sel tgt prop : Atom)
    (ts : Nat) (buf count : Nat) (task : GTask) (x : XServer) (p : Atom) (W : GBytes)
    (type : Atom) (format : Int) (hp : p ≠ None)
    (hget : get_selection_property abi x d w p = (some W, type, format))
    (hty : type ≠ abi.INCR) :
    ∃ s1 s2,
      gdk_x11_selection_input_stream_read_async
          (gdk_x11_selection_input_stream_new d w sel tgt prop ts) (some buf) count task
        = some s1 ∧
      s1.task_returns = [] ∧ s1.pending_task = some task ∧ s1.pending_data = some buf ∧
      s1.pending_size = count ∧
      gdk_x11_selection_input_stream_filter_event abi x (.SelectionNotify d w sel tgt p) s1
        = some (s2, .GDK_FILTER_REMOVE) ∧
      s2.task_returns = [{ task := task, value := (min count W.length : Nat),
                           data := W.take (min count W.length) }] ∧
      s2.pending_task = none ∧ s2.pending_data = none ∧ s2.pending_size = 0 ∧
      s2.complete = true ∧
      (∀ (buf1 count1 : Nat) (task1 : GTask),
        ∃ s3, gdk_x11_selection_input_stream_read_async s2 (some buf1) count1 task1 = some s3 ∧
          s3.task_returns = s2.task_returns ++
            [{ task := task1, value := (min count1 (W.length - min count W.length) : Nat),
               data := (W.drop (min count W.length)).take
                 (min count1 (W.length - min count W.length)) }] ∧
          s3.pending_task = none) ∧
      (∀ calls : List (Option Nat × Nat × GTask),
        ∃ s3, run_ops abi (calls.map (fun c => Op.read_async c.1 c.2.1 c.2.2)) s2 = some s3 ∧
          s3.pending_task = none ∧
          s3.task_returns.map (fun tr => tr.task) = task :: calls.map (fun c => c.2.2)) ∧
      (∀ (cnt : Nat → Nat) (buffer fuel : Nat), (∀ i, 0 < cnt i) → W.length < fuel →
        read_async_until_eof cnt buffer fuel 0 s2 = some (W.drop (min count W.length))) := by
  have hres : (drain (some buf) [W, []] count).result = min count W.length := by
    rw [drain_result, queued_before_eof_eq, data_before_eof_single]
  have hout : (drain (some buf) [W, []] count).out = W.take (min count W.length) := by
    rw [drain_out_data, hres, data_before_eof_single]
  obtain ⟨s2, hstep, hch, htr, hp2, hpd2, hps2, hc2⟩ :
      ∃ s2, gdk_x11_selection_input_stream_filter_event abi x (.SelectionNotify d w sel tgt p)
          { gdk_x11_selection_input_stream_new d w sel tgt prop ts with
            pending_data := some buf, pending_size := count, pending_task := some task }
          = some (s2, .GDK_FILTER_REMOVE) ∧
        s2.chunks = (drain (some buf) [W, []] count).chunks ∧
        s2.task_returns = [{ task := task, value := (drain (some buf) [W, []] count).result,
                             data := (drain (some buf) [W, []] count).out }] ∧
        s2.pending_task = none ∧ s2.pending_data = none ∧ s2.pending_size = 0 ∧
        s2.complete = true :=
    ⟨_, selection_single_parked_step abi x
      { gdk_x11_selection_input_stream_new d w sel tgt prop ts with
        pending_data := some buf, pending_size := count, pending_task := some task }
      d w sel tgt p W type format task rfl rfl rfl rfl hp hget hty rfl rfl rfl,
      rfl, rfl, rfl, rfl, rfl, rfl⟩
  have hdata : data_before_eof s2.chunks = W.drop (min count W.length) := by
    rw [hch, drain_data_before_eof, hres, data_before_eof_single]
  have hmem : [] ∈ s2.chunks := by
    rw [hch]; exact drain_mem_nil _ _ _ (by simp)
  have hne : s2.chunks ≠ [] :=
    fun h => by rw [h] at hmem; exact absurd hmem (List.not_mem_nil _)
  refine ⟨_, s2,
    read_async_of_no_data (gdk_x11_selection_input_stream_new d w sel tgt prop ts)
      (some buf) count task rfl,
    rfl, rfl, rfl, rfl, hstep, ?_, hp2, hpd2, hps2, hc2, ?_, ?_, ?_⟩
  · rw [htr, hres, hout]
  · intro buf1 count1 task1
    refine ⟨_, read_async_of_data s2 (some buf1) count1 task1 hne, ?_, hp2⟩
    have hres1 := drain_result (some buf1) s2.chunks count1
    have hout1 := drain_out_data buf1 s2.chunks count1
    rw [queued_before_eof_eq, hdata, List.length_drop] at hres1
    rw [hres1, hdata] at hout1
    simp only [hres1, hout1]
  · intro calls
    obtain ⟨s3, hrun, hp3, ht3⟩ := read_async_run abi calls s2 hmem hp2
    refine ⟨s3, hrun, hp3, ?_⟩
    rw [ht3, htr]
    simp
  · intro cnt buffer fuel hcnt hfuel
    rw [read_async_until_eof_eq cnt hcnt buffer fuel 0 s2 hmem hp2
      (by
        rw [queued_before_eof_eq, hdata, List.length_drop]
        omega), hdata]

/-- C8 at "abc" and a parked read of 16 bytes for task 7: the task is resolved
with 3 and "abc", and the next `read_async` of 16 bytes resolves with 0. -/
theorem parked_read_resolution_witness :
    ∃ s1 s2 s3,
      gdk_x11_selection_input_stream_read_async fresh_stream (some 0) 16 7 = some s1 ∧
      s1.task_returns = [] ∧ s1.pending_task = some 7 ∧
      gdk_x11_selection_input_stream_filter_event lp64
          (server_with (property_reply 5 [97, 98, 99])) (.SelectionNotify 1 2 10 11 12) s1
        = some (s2, .GDK_FILTER_REMOVE) ∧
      s2.task_returns = [{ task := 7, value := 3, data := [97, 98, 99] }] ∧
      s2.pending_task = none ∧
      gdk_x11_selection_input_stream_read_async s2 (some 0) 16 8 = some s3 ∧
      s3.task_returns = [{ task := 7, value := 3, data := [97, 98, 99] },
                         { task := 8, value := 0, data := [] }] ∧
      s3.pending_task = none :=
  match parked_read_resolution lp64 1 2 10 11 12 0 0 16 7
      (server_with (property_reply 5 [97, 98, 99])) 12 [97, 98, 99] 5 8 (by decide) rfl
      (by decide) with
  | ⟨s1, s2, h1, h2, h3, _, _, h6, h7, h8, _, _, _, h12, _, _⟩ =>
    match h12 0 16 8 with
    | ⟨s3, h13, h14, h15⟩ =>
      ⟨s1, s2, s3, h1, h2, h3, h6, h7, h8, h13, by rw [h14, h7]; rfl, h15⟩

/-! ## A null destination -/

/-- C18 (null destination means count but discard): on a non-empty queue and
for every count, `fill_buffer` with a null destination returns, stores
nothing, and gives the same result and leaves the same queue as `fill_buffer`
with a destination that is not null. -/
theorem null_destination_counts (b : GBytes) (rest : List GBytes) (buffer count : Nat) :
    ∃ r0 r1,
      gdk_x11_selection_input_stream_fill_buffer (b :: rest) none count = some r0 ∧
      gdk_x11_selection_input_stream_fill_buffer (b :: rest) (some buffer) count = some r1 ∧
      r0.result = r1.result ∧ r0.chunks = r1.chunks ∧ r0.out = [] := by
  have hq : b :: rest ≠ [] := List.cons_ne_nil _ _
  refine ⟨_, _, fill_buffer_eq_drain none _ count hq,
    fill_buffer_eq_drain (some buffer) _ count hq,
    (drain_buffer_irrelevant none (some buffer) _ count).2,
    (drain_buffer_irrelevant none (some buffer) _ count).1, ?_⟩
  simpa using drain_out none (b :: rest) count

/-! ## No reader parked while data is available -/

/-- C19 (no reader is left parked while data is available): in every reachable
state in which a read is parked, the queue is empty and the stream is not
complete. -/
theorem no_reader_parked_with_data (abi : Abi) (s : GdkX11SelectionInputStream)
    (hs : Reachable abi s) (hp : s.pending_task ≠ none) :
    s.chunks = [] ∧ s.complete = false :=
  (inv_of_reachable abi s hs).parked hp

/-- C19 at a stream just opened on which a read of 16 bytes is parked. -/
theorem no_reader_parked_with_data_witness :
    ({ fresh_stream with pending_task := some 7, pending_data := some 0, pending_size := 16 }
        : GdkX11SelectionInputStream).pending_task ≠ none ∧
    ({ fresh_stream with pending_task := some 7, pending_data := some 0, pending_size := 16 }
        : GdkX11SelectionInputStream).chunks = [] ∧
    ({ fresh_stream with pending_task := some 7, pending_data := some 0, pending_size := 16 }
        : GdkX11SelectionInputStream).complete = false :=
  ⟨by decide,
    no_reader_parked_with_data lp64
      { fresh_stream with pending_task := some 7, pending_data := some 0, pending_size := 16 }
      (Reachable.read_async (some 0) 16 7 (Reachable.new 1 2 10 11 12 0) rfl) (by decide)⟩

/-! ## What the filter returns, and the events it ignores -/

/-- C16 (ignored events leave the stream untouched): in every state, for an
event on another display or window, a `SelectionNotify` for another selection
or target, a `PropertyNotify` outside `INCR` mode or for another atom or with a
state other than `NewValue`, and any other kind of event, the filter returns
`GDK_FILTER_CONTINUE` and leaves the stream as it is: queue, parked read,
`complete`, `incr` and the log of Xlib calls (no property read or deleted). -/
theorem ignored_event_untouched (abi : Abi) (x : XServer) (s : GdkX11SelectionInputStream)
    (xevent : XEvent) (h : is_ignored s xevent) :
    gdk_x11_selection_input_stream_filter_event abi x xevent s
      = some (s, .GDK_FILTER_CONTINUE) := by
  unfold is_ignored at h
  by_cases hdw : xevent.display ≠ s.xdisplay ∨ xevent.window ≠ s.leader_window
  · simp [gdk_x11_selection_input_stream_filter_event, hdw]
  · have h1 : ¬ xevent.display ≠ s.xdisplay := fun h0 => hdw (Or.inl h0)
    have h2 : ¬ xevent.window ≠ s.leader_window := fun h0 => hdw (Or.inr h0)
    rcases h with h | h | h
    · exact absurd h h1
    · exact absurd h h2
    · cases xevent with
      | other d w => simp [gdk_x11_selection_input_stream_filter_event]
      | PropertyNotify d w atom state =>
        simp only at h
        simp [gdk_x11_selection_input_stream_filter_event, h]
      | SelectionNotify d w selection target property =>
        simp only at h
        have h3 : s.xselection ≠ selection ∨ s.xtarget ≠ target :=
          h.imp (fun h0 => Ne.symm h0) (fun h0 => Ne.symm h0)
        simp [gdk_x11_selection_input_stream_filter_event, h3]

/-- C16 at a `PropertyNotify` that reaches a stream just opened, which is not
in `INCR` mode. -/
theorem ignored_event_untouched_witness :
    gdk_x11_selection_input_stream_filter_event lp64 (server_with (property_reply 5 hello))
        (.PropertyNotify 1 2 12 PropertyNewValue) fresh_stream
      = some (fresh_stream, .GDK_FILTER_CONTINUE) :=
  ignored_event_untouched lp64 (server_with (property_reply 5 hello)) fresh_stream
    (.PropertyNotify 1 2 12 PropertyNewValue) (Or.inr (Or.inr (Or.inl rfl)))

/-- Every filter invocation is of one of seven kinds: the event is ignored; it
is a matching `SelectionNotify` that refuses, whose property read fails, that
announces `INCR`, or that carries the data; or it is a handled
`PropertyNotify` that ends the stream or that carries a chunk. -/
theorem filter_event_cases (abi : Abi) (x : XServer) (xevent : XEvent)
    (s : GdkX11SelectionInputStream) :
    (is_ignored s xevent ∧
      gdk_x11_selection_input_stream_filter_event abi x xevent s
        = some (s, .GDK_FILTER_CONTINUE)) ∨
    (∃ p, xevent = .SelectionNotify s.xdisplay s.leader_window s.xselection s.xtarget p ∧
      ((p = None ∧
          gdk_x11_selection_input_stream_filter_event abi x xevent s
            = (gdk_x11_selection_input_stream_complete s).map
                (fun s1 => (s1, GdkFilterReturn.GDK_FILTER_REMOVE))) ∨
        (p ≠ None ∧ (get_selection_property abi x s.xdisplay s.leader_window p).1 = none ∧
          gdk_x11_selection_input_stream_filter_event abi x xevent s
            = (gdk_x11_selection_input_stream_complete
                (log_xcalls [.XGetWindowProperty s.xdisplay s.leader_window p] s)).map
                (fun s1 => (s1, GdkFilterReturn.GDK_FILTER_REMOVE))) ∨
        (p ≠ None ∧ ∃ b f,
          get_selection_property abi x s.xdisplay s.leader_window p = (some b, abi.INCR, f) ∧
          gdk_x11_selection_input_stream_filter_event abi x xevent s
            = (gdk_x11_selection_input_stream_flush
                (set_incr (log_xcalls [.XGetWindowProperty s.xdisplay s.leader_window p] s))).map
                (fun s1 => (log_xcalls [.XDeleteProperty s.xdisplay s.leader_window p] s1,
                  GdkFilterReturn.GDK_FILTER_REMOVE))) ∨
        (p ≠ None ∧ ∃ b t f,
          get_selection_property abi x s.xdisplay s.leader_window p = (some b, t, f) ∧
          t ≠ abi.INCR ∧
          gdk_x11_selection_input_stream_filter_event abi x xevent s
            = (gdk_x11_selection_input_stream_complete
                (push_chunk b
                  (log_xcalls [.XGetWindowProperty s.xdisplay s.leader_window p] s))).map
                (fun s1 => (log_xcalls [.XDeleteProperty s.xdisplay s.leader_window p] s1,
                  GdkFilterReturn.GDK_FILTER_REMOVE))))) ∨
    (xevent = .PropertyNotify s.xdisplay s.leader_window s.xproperty PropertyNewValue ∧
      s.incr = true ∧
      (((∀ b, (get_selection_property abi x s.xdisplay s.leader_window s.xproperty).1
              = some b →
            b.length = 0 ∨
            (get_selection_property abi x s.xdisplay s.leader_window s.xproperty).2.1
              = None) ∧
          gdk_x11_selection_input_stream_filter_event abi x xevent s
            = (gdk_x11_selection_input_stream_complete
                (log_xcalls
                  [.XGetWindowProperty s.xdisplay s.leader_window s.xproperty] s)).map
                (fun s1 =>
                  (log_xcalls [.XDeleteProperty s.xdisplay s.leader_window s.xproperty] s1,
                    GdkFilterReturn.GDK_FILTER_CONTINUE))) ∨
        (∃ b t f,
          get_selection_property abi x s.xdisplay s.leader_window s.xproperty
            = (some b, t, f) ∧
          b ≠ [] ∧
          gdk_x11_selection_input_stream_filter_event abi x xevent s
            = (gdk_x11_selection_input_stream_flush
                (push_chunk b
                  (log_xcalls
                    [.XGetWindowProperty s.xdisplay s.leader_window s.xproperty] s))).map
                (fun s1 =>
                  (log_xcalls [.XDeleteProperty s.xdisplay s.leader_window s.xproperty] s1,
                    GdkFilterReturn.GDK_FILTER_CONTINUE))))) := by
  by_cases hig : is_ignored s xevent
  · exact Or.inl ⟨hig, ignored_event_untouched abi x s xevent hig⟩
  · right
    unfold is_ignored at hig
    simp only [not_or, not_not] at hig
    obtain ⟨hd, hw, hrest⟩ := hig
    cases xevent with
    | other d w => exact absurd trivial hrest
    | PropertyNotify d w atom state =>
      simp only [XEvent.display, XEvent.window] at hd hw
      simp only [not_or, not_not, Bool.not_eq_false] at hrest
      obtain ⟨hincr, ha, hst⟩ := hrest
      subst hd hw ha hst
      right
      refine ⟨rfl, hincr, ?_⟩
      by_cases hend : ∀ b,
          (get_selection_property abi x s.xdisplay s.leader_window s.xproperty).1 = some b →
          b.length = 0 ∨
          (get_selection_property abi x s.xdisplay s.leader_window s.xproperty).2.1 = None
      · exact Or.inl ⟨hend, filter_event_property_end abi x s hincr hend⟩
      · right
        rcases hgp : get_selection_property abi x s.xdisplay s.leader_window s.xproperty
          with ⟨bytes, type, format⟩
        rw [hgp] at hend
        simp only [not_forall, not_or] at hend
        obtain ⟨b, hb, hb0, hty⟩ := hend
        subst hb
        have hbne : b ≠ [] := fun h => hb0 (by simp [h])
        exact ⟨b, type, format, rfl, hbne,
          filter_event_property_chunk abi x s hincr b type format hgp hbne hty⟩
    | SelectionNotify d w selection target property =>
      simp only [XEvent.display, XEvent.window] at hd hw
      simp only [not_or, not_not] at hrest
      obtain ⟨hsel, htg⟩ := hrest
      subst hd hw hsel htg
      left
      refine ⟨property, rfl, ?_⟩
      by_cases hp : property = None
      · subst hp
        exact Or.inl ⟨rfl, filter_event_refused abi x s⟩
      · right
        rcases hgp : get_selection_property abi x s.xdisplay s.leader_window property
          with ⟨bytes, type, format⟩
        cases bytes with
        | none =>
          exact Or.inl ⟨hp, rfl,
            filter_event_selection_failed abi x s property hp (by rw [hgp])⟩
        | some b =>
          right
          by_cases hty : type = abi.INCR
          · subst hty
            exact Or.inl ⟨hp, b, format, rfl,
              filter_event_selection_incr abi x s property hp b format hgp⟩
          · exact Or.inr ⟨hp, b, type, format, rfl, hty,
              filter_event_selection_single abi x s property hp b type format hgp hty⟩

theorem ret_of_map {o : Option GdkX11SelectionInputStream}
    {f : GdkX11SelectionInputStream → GdkX11SelectionInputStream}
    {R ret : GdkFilterReturn} {s1 : GdkX11SelectionInputStream}
    (h : o.map (fun t => (f t, R)) = some (s1, ret)) :
    ret = R ∧ ∃ t, o = some t ∧ s1 = f t := by
  cases o with
  | none => simp at h
  | some t =>
    simp only [Option.map_some', Option.some.injEq, Prod.mk.injEq] at h
    exact ⟨h.2.symm, t, rfl, h.1.symm⟩

theorem not_matching_of_ignored (s : GdkX11SelectionInputStream) (xevent : XEvent)
    (hig : is_ignored s xevent) : ¬ matching_selection_notify s xevent := by
  intro hm
  unfold is_ignored at hig
  cases xevent with
  | other d w => exact hm
  | PropertyNotify d w atom state => exact hm
  | SelectionNotify d w selection target property =>
    simp only [matching_selection_notify] at hm
    simp only [XEvent.display, XEvent.window] at hig
    rcases hig with h0 | h0 | h0 | h0
    · exact h0 hm.1
    · exact h0 hm.2.1
    · exact h0 hm.2.2.1
    · exact h0 hm.2.2.2

theorem filter_event_ret (abi : Abi) (x : XServer) (xevent : XEvent)
    (s s1 : GdkX11SelectionInputStream) (ret : GdkFilterReturn)
    (h : gdk_x11_selection_input_stream_filter_event abi x xevent s = some (s1, ret)) :
    (matching_selection_notify s xevent ∧ ret = .GDK_FILTER_REMOVE) ∨
    (¬ matching_selection_notify s xevent ∧ ret = .GDK_FILTER_CONTINUE) := by
  rcases filter_event_cases abi x xevent s with
    ⟨hig, h0⟩ | ⟨p, hev, h1 | h2 | h3 | h4⟩ | ⟨hev, _, h5 | h6⟩
  · rw [h0] at h
    simp only [Option.some.injEq, Prod.mk.injEq] at h
    exact Or.inr ⟨not_matching_of_ignored s xevent hig, h.2.symm⟩
  · rw [h1.2] at h
    exact Or.inl ⟨by rw [hev]; exact ⟨rfl, rfl, rfl, rfl⟩, (ret_of_map h).1⟩
  · rw [h2.2.2] at h
    exact Or.inl ⟨by rw [hev]; exact ⟨rfl, rfl, rfl, rfl⟩, (ret_of_map h).1⟩
  · obtain ⟨_, b, f, _, h3⟩ := h3
    rw [h3] at h
    exact Or.inl ⟨by rw [hev]; exact ⟨rfl, rfl, rfl, rfl⟩, (ret_of_map h).1⟩
  · obtain ⟨_, b, t, f, _, _, h4⟩ := h4
    rw [h4] at h
    exact Or.inl ⟨by rw [hev]; exact ⟨rfl, rfl, rfl, rfl⟩, (ret_of_map h).1⟩
  · rw [h5.2] at h
    exact Or.inr ⟨by rw [hev]; exact fun hm => hm, (ret_of_map h).1⟩
  · obtain ⟨b, t, f, _, _, h6⟩ := h6
    rw [h6] at h
    exact Or.inr ⟨by rw [hev]; exact fun hm => hm, (ret_of_map h).1⟩

/-- C11 (filter return discipline): in every state and for every event, a
filter invocation that returns gives `GDK_FILTER_REMOVE` if and only if the
event is a `SelectionNotify` on the stream's display and requestor window
whose selection and target atoms are the stream's, and `GDK_FILTER_CONTINUE`
in every other case, a handled `PropertyNotify` included; and in every
reachable state the invocation does return. -/
theorem filter_return_discipline (abi : Abi) (x : XServer) (xevent : XEvent)
    (s : GdkX11SelectionInputStream) :
    (∀ s1 ret, gdk_x11_selection_input_stream_filter_event abi x xevent s = some (s1, ret) →
      (ret = .GDK_FILTER_REMOVE ↔ matching_selection_notify s xevent) ∧
      (¬ matching_selection_notify s xevent → ret = .GDK_FILTER_CONTINUE)) ∧
    (Reachable abi s →
      ∃ s1 ret, gdk_x11_selection_input_stream_filter_event abi x xevent s = some (s1, ret)) := by
  constructor
  · intro s1 ret h
    rcases filter_event_ret abi x xevent s s1 ret h with ⟨hm, hr⟩ | ⟨hm, hr⟩
    · exact ⟨⟨fun _ => hm, fun _ => hr⟩, fun hn => absurd hm hn⟩
    · refine ⟨⟨fun h0 => ?_, fun h0 => absurd h0 hm⟩, fun _ => hr⟩
      rw [hr] at h0
      exact absurd h0 (by decide)
  · intro hs
    obtain ⟨s1, ret, h, _⟩ := filter_event_of_inv abi x xevent s (inv_of_reachable abi s hs)
    exact ⟨s1, ret, h⟩

/-! ## The steps of an `INCR` transfer -/

/-- C14 (`INCR` handshake): on a stream with an empty queue that is not
complete, as a stream just opened is, with or without a parked read, a
matching `SelectionNotify` whose property is not `None` and reads with type
`INCR` is removed by the filter, sets `incr`, leaves the queue empty (the size
hint is dropped), leaves `complete` unset, leaves the parked read as it was
and resolves no task; the property is read and then deleted. -/
theorem incr_handshake (abi : Abi) (x : XServer) (s : GdkX11SelectionInputStream)
    (p : Atom) (hint : GBytes) (format : Int) (hp : p ≠ None)
    (hget : get_selection_property abi x s.xdisplay s.leader_window p
      = (some hint, abi.INCR, format))
    (hq : s.chunks = []) (hc : s.complete = false) :
    ∃ s1, gdk_x11_selection_input_stream_filter_event abi x
          (.SelectionNotify s.xdisplay s.leader_window s.xselection s.xtarget p) s
        = some (s1, .GDK_FILTER_REMOVE) ∧
      s1.incr = true ∧ s1.chunks = [] ∧ s1.complete = false ∧
      s1.pending_task = s.pending_task ∧ s1.pending_data = s.pending_data ∧
      s1.pending_size = s.pending_size ∧ s1.task_returns = s.task_returns ∧
      s1.xcalls = s.xcalls ++ [.XGetWindowProperty s.xdisplay s.leader_window p,
        .XDeleteProperty s.xdisplay s.leader_window p] := by
  have hf := filter_event_selection_incr abi x s p hp hint format hget
  rw [flush_of_no_data
    { s with
      xcalls := s.xcalls ++ [.XGetWindowProperty s.xdisplay s.leader_window p]
      incr := true }
    (by simp [gdk_x11_selection_input_stream_has_data, hq, hc])] at hf
  exact ⟨_, hf, rfl, hq, hc, rfl, rfl, rfl, rfl, by simp⟩

/-- C14 at a stream just opened on which a read of 16 bytes for task 7 is
parked: the announcement leaves the read parked. -/
theorem incr_handshake_witness :
    ∃ s1, gdk_x11_selection_input_stream_filter_event lp64
          (server_with (property_reply 400 [11, 0, 0, 0])) (.SelectionNotify 1 2 10 11 12)
          { fresh_stream with pending_task := some 7, pending_data := some 0,
                              pending_size := 16 }
        = some (s1, .GDK_FILTER_REMOVE) ∧
      s1.incr = true ∧ s1.chunks = [] ∧ s1.complete = false ∧
      s1.pending_task = some 7 ∧ s1.pending_data = some 0 ∧
      s1.pending_size = 16 ∧ s1.task_returns = [] ∧
      s1.xcalls = [.XConvertSelection 1 10 11 12 2 0, .XGetWindowProperty 1 2 12,
        .XDeleteProperty 1 2 12] :=
  incr_handshake lp64 (server_with (property_reply 400 [11, 0, 0, 0]))
    { fresh_stream with pending_task := some 7, pending_data := some 0, pending_size := 16 }
    12 [11, 0, 0, 0] 8 (by decide) rfl rfl rfl

/-! ## What flush and completion leave alone -/

theorem flush_frame (s s1 : GdkX11SelectionInputStream)
    (h : gdk_x11_selection_input_stream_flush s = some s1) :
    s1.complete = s.complete ∧ s1.incr = s.incr ∧ s1.xcalls = s.xcalls ∧
      s1.filter_installed = s.filter_installed ∧ s1.in_input_streams = s.in_input_streams := by
  unfold gdk_x11_selection_input_stream_flush at h
  split at h
  · simp only [Option.some.injEq] at h
    subst h
    exact ⟨rfl, rfl, rfl, rfl, rfl⟩
  · split at h
    · simp only [Option.some.injEq] at h
      subst h
      exact ⟨rfl, rfl, rfl, rfl, rfl⟩
    · split at h
      · simp at h
      · simp only [Option.some.injEq] at h
        subst h
        exact ⟨rfl, rfl, rfl, rfl, rfl⟩

theorem complete_frame (s s1 : GdkX11SelectionInputStream)
    (h : gdk_x11_selection_input_stream_complete s = some s1) :
    s1.complete = true ∧ s1.incr = s.incr ∧ s1.xcalls = s.xcalls := by
  cases hc : s.complete with
  | true =>
    rw [complete_of_complete s hc] at h
    simp only [Option.some.injEq] at h
    subst h
    exact ⟨hc, rfl, rfl⟩
  | false =>
    rw [complete_of_not_complete s hc] at h
    cases hf : gdk_x11_selection_input_stream_flush
        { s with complete := true, chunks := s.chunks ++ [[]] } with
    | none => simp [hf] at h
    | some s3 =>
      obtain ⟨h1, h2, h3, _, _⟩ := flush_frame _ s3 hf
      simp only [hf, Option.map_some', Option.some.injEq] at h
      subst h
      exact ⟨h1, h2, h3⟩

/-! ## Reading and deleting properties -/

theorem expected_xcalls_of_ignored (abi : Abi) (x : XServer) (s : GdkX11SelectionInputStream)
    (xevent : XEvent) (h : is_ignored s xevent) : expected_xcalls abi x s xevent = [] := by
  unfold is_ignored at h
  cases xevent with
  | other d w => rfl
  | PropertyNotify d w atom state =>
    simp only [XEvent.display, XEvent.window] at h
    simp only [expected_xcalls]
    rw [if_neg]
    rintro ⟨h1, h2, h3, h4, h5⟩
    rcases h with h | h | h | h | h
    · exact h h1
    · exact h h2
    · rw [h3] at h; exact absurd h (by decide)
    · exact h h4
    · exact h h5
  | SelectionNotify d w selection target p =>
    simp only [XEvent.display, XEvent.window] at h
    simp only [expected_xcalls]
    rw [if_neg]
    rintro ⟨h1, h2, h3, h4, _⟩
    rcases h with h | h | h | h
    · exact h h1
    · exact h h2
    · exact h h3
    · exact h h4

/-- C17 (read-then-delete discipline): a filter invocation that returns adds to
the log of Xlib calls exactly: a read of the event's property followed by one
delete of it, for a matching `SelectionNotify` whose property is not `None`
and reads successfully (single transfer or `INCR` announcement) and for every
handled `PropertyNotify` (read failure, end of stream, chunk queued); the read
alone for a matching `SelectionNotify` whose property read fails; nothing for a
refusal and for an ignored event.  In every reachable state the invocation
does return. -/
theorem read_then_delete (abi : Abi) (x : XServer) (xevent : XEvent)
    (s : GdkX11SelectionInputStream) :
    (∀ s1 ret, gdk_x11_selection_input_stream_filter_event abi x xevent s = some (s1, ret) →
      s1.xcalls = s.xcalls ++ expected_xcalls abi x s xevent) ∧
    (Reachable abi s →
      ∃ s1 ret, gdk_x11_selection_input_stream_filter_event abi x xevent s = some (s1, ret)) := by
  constructor
  · intro s1 ret h
    rcases filter_event_cases abi x xevent s with
      ⟨hig, h0⟩ | ⟨p, hev, h1 | h2 | h3 | h4⟩ | ⟨hev, hincr, h5 | h6⟩
    · rw [h0] at h
      simp only [Option.some.injEq, Prod.mk.injEq] at h
      rw [expected_xcalls_of_ignored abi x s xevent hig, ← h.1]
      simp
    · obtain ⟨hp, h1⟩ := h1
      rw [h1] at h
      obtain ⟨_, t, ht, hs1⟩ := ret_of_map (f := fun t => t) h
      rw [hs1, (complete_frame s t ht).2.2, hev]
      simp [expected_xcalls, hp]
    · obtain ⟨hp, hg, h2⟩ := h2
      rw [h2] at h
      obtain ⟨_, t, ht, hs1⟩ := ret_of_map (f := fun t => t) h
      rw [hs1, (complete_frame _ t ht).2.2, hev]
      simp [expected_xcalls, hp, hg, log_xcalls]
    · obtain ⟨hp, b, f, hg, h3⟩ := h3
      rw [h3] at h
      obtain ⟨_, t, ht, hs1⟩ := ret_of_map h
      rw [hs1, hev]
      simp [expected_xcalls, hp, hg, log_xcalls, (flush_frame _ t ht).2.2.1, set_incr]
    · obtain ⟨hp, b, t0, f, hg, _, h4⟩ := h4
      rw [h4] at h
      obtain ⟨_, t, ht, hs1⟩ := ret_of_map h
      rw [hs1, hev]
      simp [expected_xcalls, hp, hg, log_xcalls, (complete_frame _ t ht).2.2, push_chunk]
    · obtain ⟨_, h5⟩ := h5
      rw [h5] at h
      obtain ⟨_, t, ht, hs1⟩ := ret_of_map h
      rw [hs1, hev]
      simp [expected_xcalls, hincr, log_xcalls, (complete_frame _ t ht).2.2]
    · obtain ⟨b, t0, f, _, _, h6⟩ := h6
      rw [h6] at h
      obtain ⟨_, t, ht, hs1⟩ := ret_of_map h
      rw [hs1, hev]
      simp [expected_xcalls, hincr, log_xcalls, (flush_frame _ t ht).2.2.1, push_chunk]
  · intro hs
    obtain ⟨s1, ret, h, _⟩ := filter_event_of_inv abi x xevent s (inv_of_reachable abi s hs)
    exact ⟨s1, ret, h⟩

/-! ## The EOF marker under reads -/

/-- A call of `fill_buffer` with `count > 0` on a queue headed by a zero-length
chunk puts that chunk back twice: once in the `size == 0` branch and once
more after the loop. -/
theorem fill_buffer_head_eof (rest : List GBytes) (buffer : Option Nat) (count : Nat) :
    gdk_x11_selection_input_stream_fill_buffer ([] :: rest) buffer (count + 1)
      = some { chunks := [] :: [] :: rest, out := [], result := 0 } := by
  rw [fill_buffer_eq_drain buffer ([] :: rest) (count + 1) (List.cons_ne_nil _ _)]
  simp [drain]

/-- C12 at its failing input: after a single transfer of "hello" the stream is
complete and its queue is "hello" followed by one EOF marker; a read of 10
bytes returns 5 and leaves two zero-length chunks in the queue, and the next
read of 10 bytes returns 0 and leaves three. -/
theorem eof_marker_put_back_twice :
    ∃ s1 r r2,
      filter_events lp64
          [(server_with (property_reply 5 hello), .SelectionNotify 1 2 10 11 12)]
          fresh_stream = some s1 ∧
      s1.complete = true ∧ s1.chunks = [hello, []] ∧
      gdk_x11_selection_input_stream_read s1 (some 0) 10 = some r ∧
      r.ret = 5 ∧ r.out = hello ∧ r.stream.chunks = [[], []] ∧
      gdk_x11_selection_input_stream_read r.stream (some 0) 10 = some r2 ∧
      r2.ret = 0 ∧ r2.stream.chunks = [[], [], []] :=
  ⟨_, _, _, rfl, rfl, rfl, rfl, rfl, rfl, rfl, rfl, rfl, rfl⟩

/-! ## One step of an `INCR` transfer in a reachable state -/

theorem queued_before_eof_singleton (W : GBytes) : queued_before_eof [W] = W.length := by
  rw [queued_before_eof_cons]
  by_cases h : W.length = 0
  · simp [h]
  · simp [h, queued_before_eof]

/-- Completion of a stream that satisfies the invariant and is not complete. -/
theorem complete_of_inv (s : GdkX11SelectionInputStream) (hi : Inv s)
    (hc : s.complete = false) :
    ∃ s1, gdk_x11_selection_input_stream_complete s = some s1 ∧
      s1.complete = true ∧ s1.incr = s.incr ∧ s1.xcalls = s.xcalls ∧
      s1.pending_task = none ∧ s1.chunks.flatten = s.chunks.flatten ∧
      (s.pending_task = none →
        s1.chunks = s.chunks ++ [[]] ∧ s1.task_returns = s.task_returns) ∧
      (∀ task, s.pending_task = some task →
        s1.task_returns = s.task_returns ++ [{ task := task, value := 0, data := [] }]) := by
  cases hp : s.pending_task with
  | none =>
    refine ⟨_, complete_of_no_pending s hc hp, rfl, rfl, rfl, hp, by simp, ?_, ?_⟩
    · intro _
      exact ⟨rfl, rfl⟩
    · intro task ht
      exact absurd ht (by simp)
  | some task =>
    have hq : s.chunks = [] := (hi.parked (by simp [hp])).1
    rw [complete_of_not_complete s hc,
      flush_of_pending { s with complete := true, chunks := s.chunks ++ [[]] } task hp
        (by simp)]
    refine ⟨_, rfl, rfl, rfl, rfl, rfl, ?_, ?_, ?_⟩
    · simp only [hq, List.nil_append, drain_eof_only]
      split <;> simp
    · intro h
      exact absurd h (by simp)
    · intro task1 ht
      simp only [Option.some.injEq] at ht
      subst ht
      simp [hq, drain_eof_only]

/-- Queuing a chunk and flushing, on a stream that satisfies the invariant. -/
theorem push_flush_of_inv (s : GdkX11SelectionInputStream) (hi : Inv s) (W : GBytes) :
    ∃ s1, gdk_x11_selection_input_stream_flush (push_chunk W s) = some s1 ∧
      s1.complete = s.complete ∧ s1.incr = s.incr ∧ s1.xcalls = s.xcalls ∧
      s1.pending_task = none ∧
      (s.pending_task = none →
        s1.chunks = s.chunks ++ [W] ∧ s1.task_returns = s.task_returns) ∧
      (∀ task, s.pending_task = some task →
        s1.task_returns = s.task_returns ++
          [{ task := task, value := (min s.pending_size W.length : Nat),
             data := if s.pending_data.isSome then W.take (min s.pending_size W.length)
                     else [] }] ∧
        s1.chunks.flatten = W.drop (min s.pending_size W.length)) := by
  cases hp : s.pending_task with
  | none =>
    refine ⟨_, flush_of_no_pending (push_chunk W s) hp, rfl, rfl, rfl, hp, ?_, ?_⟩
    · intro _
      exact ⟨rfl, rfl⟩
    · intro task ht
      exact absurd ht (by simp)
  | some task =>
    have hq : s.chunks = [] := (hi.parked (by simp [hp])).1
    have hres := drain_result s.pending_data [W] s.pending_size
    have hout := drain_out s.pending_data [W] s.pending_size
    have hfl := drain_flatten s.pending_data [W] s.pending_size
    rw [queued_before_eof_singleton] at hres
    rw [hres] at hout hfl
    simp only [List.flatten_cons, List.flatten_nil, List.append_nil] at hout hfl
    refine ⟨_, flush_of_pending (push_chunk W s) task hp (by simp [push_chunk]),
      rfl, rfl, rfl, rfl, ?_, ?_⟩
    · intro h
      exact absurd h (by simp)
    · intro task1 ht
      simp only [Option.some.injEq] at ht
      subst ht
      simp [push_chunk, hq, hres, hout, hfl]

/-- C15 (`INCR` chunk step): in a reachable state in `INCR` mode that is not
complete, a `PropertyNotify` on the stream's display and requestor window for
its property atom with state `NewValue` is passed on (`GDK_FILTER_CONTINUE`)
and (1) if the property read fails the stream completes; (2) if the read
gives a zero-length chunk or type `None` the stream completes and no byte is
queued; in both cases only the EOF marker is appended and a parked read is
resolved with 0; (3) otherwise the stream stays in `INCR` mode and not
complete, and the chunk is appended to the back of the queue, or, when a read
is parked (the queue is then empty), the parked read is served from the chunk
and what it did not take stays queued. -/
theorem incr_chunk_step (abi : Abi) (x : XServer) (s : GdkX11SelectionInputStream)
    (hs : Reachable abi s) (hincr : s.incr = true) (hc : s.complete = false) :
    ((get_selection_property abi x s.xdisplay s.leader_window s.xproperty).1 = none →
      ∃ s1, gdk_x11_selection_input_stream_filter_event abi x
            (.PropertyNotify s.xdisplay s.leader_window s.xproperty PropertyNewValue) s
          = some (s1, .GDK_FILTER_CONTINUE) ∧
        s1.complete = true ∧ s1.pending_task = none ∧
        s1.chunks.flatten = s.chunks.flatten ∧
        (s.pending_task = none →
          s1.chunks = s.chunks ++ [[]] ∧ s1.task_returns = s.task_returns) ∧
        (∀ task, s.pending_task = some task →
          s1.task_returns = s.task_returns ++ [{ task := task, value := 0, data := [] }])) ∧
    (∀ b t f,
      get_selection_property abi x s.xdisplay s.leader_window s.xproperty = (some b, t, f) →
      b.length = 0 ∨ t = None →
      ∃ s1, gdk_x11_selection_input_stream_filter_event abi x
            (.PropertyNotify s.xdisplay s.leader_window s.xproperty PropertyNewValue) s
          = some (s1, .GDK_FILTER_CONTINUE) ∧
        s1.complete = true ∧ s1.pending_task = none ∧
        s1.chunks.flatten = s.chunks.flatten ∧
        (s.pending_task = none →
          s1.chunks = s.chunks ++ [[]] ∧ s1.task_returns = s.task_returns) ∧
        (∀ task, s.pending_task = some task →
          s1.task_returns = s.task_returns ++ [{ task := task, value := 0, data := [] }])) ∧
    (∀ W t f,
      get_selection_property abi x s.xdisplay s.leader_window s.xproperty = (some W, t, f) →
      W ≠ [] →
      ∃ s1, gdk_x11_selection_input_stream_filter_event abi x
            (.PropertyNotify s.xdisplay s.leader_window s.xproperty PropertyNewValue) s
          = some (s1, .GDK_FILTER_CONTINUE) ∧
        s1.incr = true ∧ s1.complete = false ∧ s1.pending_task = none ∧
        (s.pending_task = none →
          s1.chunks = s.chunks ++ [W] ∧ s1.task_returns = s.task_returns) ∧
        (∀ task, s.pending_task = some task →
          s.chunks = [] ∧
          s1.task_returns = s.task_returns ++
            [{ task := task, value := (min s.pending_size W.length : Nat),
               data := if s.pending_data.isSome then W.take (min s.pending_size W.length)
                       else [] }] ∧
          s1.chunks.flatten = W.drop (min s.pending_size W.length))) := by
  have hi := inv_of_reachable abi s hs
  have hend : ∀ (hget : ∀ b,
      (get_selection_property abi x s.xdisplay s.leader_window s.xproperty).1 = some b →
      b.length = 0 ∨
      (get_selection_property abi x s.xdisplay s.leader_window s.xproperty).2.1 = None),
      ∃ s1, gdk_x11_selection_input_stream_filter_event abi x
            (.PropertyNotify s.xdisplay s.leader_window s.xproperty PropertyNewValue) s
          = some (s1, .GDK_FILTER_CONTINUE) ∧
        s1.complete = true ∧ s1.pending_task = none ∧
        s1.chunks.flatten = s.chunks.flatten ∧
        (s.pending_task = none →
          s1.chunks = s.chunks ++ [[]] ∧ s1.task_returns = s.task_returns) ∧
        (∀ task, s.pending_task = some task →
          s1.task_returns = s.task_returns ++
            [{ task := task, value := 0, data := [] }]) := by
    intro hget
    obtain ⟨s1, h1, h2, _, _, h5, h6, h7, h8⟩ := complete_of_inv
      (log_xcalls [.XGetWindowProperty s.xdisplay s.leader_window s.xproperty] s)
      (hi.log_xcalls _) hc
    refine ⟨log_xcalls [.XDeleteProperty s.xdisplay s.leader_window s.xproperty] s1,
      ?_, h2, h5, h6, h7, h8⟩
    rw [filter_event_property_end abi x s hincr hget]
    exact congrArg (Option.map _) h1
  refine ⟨?_, ?_, ?_⟩
  · intro hnone
    exact hend (fun b hb => by rw [hnone] at hb; simp at hb)
  · intro b t f hget hz
    exact hend (fun b1 hb => by
      rw [hget] at hb ⊢
      simp only [Option.some.injEq] at hb
      rw [← hb]
      exact hz)
  · intro W t f hget hW
    have hty := get_selection_property_some abi x _ _ _ W t f hget
    obtain ⟨s1, h1, h2, h3, _, h5, h6, h7⟩ := push_flush_of_inv
      (log_xcalls [.XGetWindowProperty s.xdisplay s.leader_window s.xproperty] s)
      (hi.log_xcalls _) W
    refine ⟨log_xcalls [.XDeleteProperty s.xdisplay s.leader_window s.xproperty] s1,
      ?_, ?_, ?_, h5, h6, ?_⟩
    · rw [filter_event_property_chunk abi x s hincr W t f hget hW hty]
      exact congrArg (Option.map _) h1
    · exact h3.trans hincr
    · exact h2.trans hc
    · intro task ht
      exact ⟨(hi.parked (by simp [ht])).1, h7 task ht⟩

theorem reachable_incr_stream : Reachable lp64 incr_stream :=
  @Reachable.filter_event lp64 fresh_stream incr_stream .GDK_FILTER_REMOVE
    (server_with (property_reply 400 [11, 0, 0, 0])) (.SelectionNotify 1 2 10 11 12)
    (Reachable.new 1 2 10 11 12 0) rfl rfl

/-- C15 at the stream `incr_stream` and a `PropertyNotify` that carries
"hello": the chunk is appended to the empty queue. -/
theorem incr_chunk_step_witness :
    ∃ s1, gdk_x11_selection_input_stream_filter_event lp64
          (server_with (property_reply 5 hello)) (.PropertyNotify 1 2 12 PropertyNewValue)
          incr_stream
        = some (s1, .GDK_FILTER_CONTINUE) ∧
      s1.incr = true ∧ s1.complete = false ∧ s1.pending_task = none ∧
      s1.chunks = [hello] ∧ s1.task_returns = [] :=
  match (incr_chunk_step lp64 (server_with (property_reply 5 hello)) incr_stream
      reachable_incr_stream rfl rfl).2.2 hello 5 8 rfl (by decide) with
  | ⟨s1, h1, h2, h3, h4, h5, _⟩ => ⟨s1, h1, h2, h3, h4, (h5 rfl).1, (h5 rfl).2⟩

/-! ## Completion is final -/

theorem apply_complete_mono (abi : Abi) (op : Op) (s s1 : GdkX11SelectionInputStream)
    (h : op.apply abi s = some s1) (hc : s.complete = true) : s1.complete = true := by
  cases op with
  | read buffer count =>
    simp only [Op.apply, gdk_x11_selection_input_stream_read] at h
    split at h
    · simp at h
    · simp only [Option.map_some', Option.some.injEq] at h
      rw [← h]; exact hc
  | read_async buffer count task =>
    simp only [Op.apply, gdk_x11_selection_input_stream_read_async] at h
    split at h
    · split at h
      · simp at h
      · simp only [Option.some.injEq] at h
        rw [← h]; exact hc
    · simp only [Option.some.injEq] at h
      rw [← h]; exact hc
  | flush =>
    exact (flush_frame s s1 h).1.trans hc
  | complete =>
    exact (complete_frame s s1 h).1
  | filter_event x xevent =>
    simp only [Op.apply] at h
    cases hf : gdk_x11_selection_input_stream_filter_event abi x xevent s with
    | none => simp [hf] at h
    | some r =>
      obtain ⟨s2, ret⟩ := r
      simp only [hf, Option.map_some', Option.some.injEq] at h
      subst h
      rcases filter_event_shape abi x xevent s with
        h0 | ⟨l1, l2, ret1, h1 | ⟨b, _, h2⟩ | h3 | ⟨b, h4⟩⟩
      · rw [h0] at hf
        simp only [Option.some.injEq, Prod.mk.injEq] at hf
        rw [← hf.1]; exact hc
      · rw [h1] at hf
        obtain ⟨_, t, ht, hs2⟩ := ret_of_map hf
        rw [hs2]
        exact (complete_frame _ t ht).1
      · rw [h2] at hf
        obtain ⟨_, t, ht, hs2⟩ := ret_of_map hf
        rw [hs2]
        exact (flush_frame _ t ht).1.trans hc
      · rw [h3] at hf
        obtain ⟨_, t, ht, hs2⟩ := ret_of_map hf
        rw [hs2]
        exact (flush_frame _ t ht).1.trans hc
      · rw [h4] at hf
        obtain ⟨_, t, ht, hs2⟩ := ret_of_map hf
        rw [hs2]
        exact (complete_frame _ t ht).1

theorem reachable_apply (abi : Abi) (op : Op) (s s1 : GdkX11SelectionInputStream)
    (hs : Reachable abi s) (hen : op.enabled s) (h : op.apply abi s = some s1) :
    Reachable abi s1 := by
  cases op with
  | read buffer count =>
    simp only [Op.apply] at h
    cases hr : gdk_x11_selection_input_stream_read s buffer count with
    | none => simp [hr] at h
    | some r =>
      simp only [hr, Option.map_some', Option.some.injEq] at h
      rw [← h]
      exact Reachable.read buffer count hs hr
  | read_async buffer count task => exact Reachable.read_async buffer count task hs h
  | flush => exact Reachable.flush hs h
  | complete => exact Reachable.complete hs h
  | filter_event x xevent =>
    simp only [Op.apply] at h
    cases hf : gdk_x11_selection_input_stream_filter_event abi x xevent s with
    | none => simp [hf] at h
    | some r =>
      obtain ⟨s2, ret⟩ := r
      simp only [hf, Option.map_some', Option.some.injEq] at h
      rw [← h]
      exact Reachable.filter_event x xevent hs hen hf

/-- C13 (completion invariant): no operation, in any state, resets `complete`;
in every reachable state in which `complete` is set no read is parked and the
stream is out of the event filter and of the display's list of streams; and
every operation that can take place in such a state (the filter cannot: it is
not installed) leads to a reachable state whose queued bytes are a tail of the
bytes queued before, so nothing but EOF markers is ever queued after
completion. -/
theorem completion_invariant (abi : Abi) :
    (∀ (op : Op) (s s1 : GdkX11SelectionInputStream),
      op.apply abi s = some s1 → s.complete = true → s1.complete = true) ∧
    (∀ s : GdkX11SelectionInputStream, Reachable abi s → s.complete = true →
      s.pending_task = none ∧ s.filter_installed = false ∧ s.in_input_streams = false ∧
      ∀ x xevent, ¬ (Op.filter_event x xevent).enabled s) ∧
    (∀ (op : Op) (s s1 : GdkX11SelectionInputStream), Reachable abi s →
      s.complete = true → op.enabled s → op.apply abi s = some s1 →
      Reachable abi s1 ∧ s1.chunks.flatten <:+ s.chunks.flatten) := by
  refine ⟨apply_complete_mono abi, ?_, ?_⟩
  · intro s hs hc
    have hi := inv_of_reachable abi s hs
    have hd := hi.deregistered hc
    refine ⟨?_, hd.1, hd.2, ?_⟩
    · by_contra hp
      have := (hi.parked hp).2
      rw [hc] at this
      exact absurd this (by decide)
    · intro x xevent hen
      simp only [Op.enabled] at hen
      rw [hd.1] at hen
      exact absurd hen (by decide)
  · intro op s s1 hs hc hen h
    have hi := inv_of_reachable abi s hs
    have hne : s.chunks ≠ [] := fun hq => by
      have := hi.eof_queued hc
      rw [hq] at this
      exact absurd this (List.not_mem_nil _)
    refine ⟨reachable_apply abi op s s1 hs hen h, ?_⟩
    cases op with
    | read buffer count =>
      simp only [Op.apply, read_eq_drain s buffer count hne, Option.map_some',
        Option.some.injEq] at h
      rw [← h]
      simp only [drain_flatten]
      exact List.drop_suffix _ _
    | read_async buffer count task =>
      simp only [Op.apply, read_async_of_data s buffer count task hne,
        Option.some.injEq] at h
      rw [← h]
      simp only [drain_flatten]
      exact List.drop_suffix _ _
    | flush =>
      simp only [Op.apply, flush_of_inv s hi, Option.some.injEq] at h
      rw [← h]
    | complete =>
      simp only [Op.apply, complete_of_complete s hc, Option.some.injEq] at h
      rw [← h]
    | filter_event x xevent =>
      simp only [Op.enabled] at hen
      rw [(hi.deregistered hc).1] at hen
      exact absurd hen (by decide)

end GdkX11
